import Mathlib

/-!
Verification development for the Spimex trading-results service
(`app/utils.py`, `app/cache.py`, `app/crud.py`, `app/main.py`,
`app/repositories/trading_repository.py`, `app/services/trading_service.py`).

The service is embedded shallowly:
* wall-clock time is modelled as whole seconds (`Nat`) counted from the local
  midnight of an arbitrary epoch day, so Python `datetime` arithmetic on whole
  seconds is exact integer arithmetic;
* the Redis cache is a finite association list of entries with an optional
  absolute expiry deadline;
* the relational trading store is a list of rows, and the SQL queries issued
  by `crud.py` / `trading_repository.py` (select / where / order_by desc /
  limit / distinct) are modelled by list filtering, sorting and truncation,
  following the spec's description of the opaque queryable store;
* JSON round-tripping (`json.loads (json.dumps x) = x`) is modelled as exact,
  and `datetime.fromisoformat` is modelled as the strict ISO parser.

Definitions come first, theorems follow.
-/

set_option linter.unusedVariables false

/-- Seconds in a day. -/
def daySec : Nat := 86400

/-- The daily cache cutover 14:11 expressed as seconds after local midnight. -/
def cutoverSec : Nat := 14 * 3600 + 11 * 60

/-- The flush instant computed inside `get_seconds_until_flush` and
`schedule_cache_flush`: today's 14:11 if `now` has not passed it, otherwise
tomorrow's 14:11 (`flush_time += timedelta(days=1)` exactly when
`now > flush_time`). -/
def flushInstant (now : Nat) : Nat :=
  let ft := now / daySec * daySec + cutoverSec
  if ft < now then ft + daySec else ft

/-- Embedding of `app/utils.py` `get_seconds_until_flush` (the identical code
is duplicated in `app/main.py`): the number of seconds from `now` until the
next 14:11 cutover, as the Python `int((flush_time - now).total_seconds())`
(exact on whole seconds). -/
def get_seconds_until_flush (now : Nat) : Int :=
  (flushInstant now : Int) - (now : Int)

/-- The ASCII digit character for `n < 10`. -/
def digitChar (n : Nat) : Char := Char.ofNat (48 + n)

/-- Numeric value of an ASCII digit character. -/
def digitVal (c : Char) : Nat := c.toNat - 48

/-- Whether a character is an ASCII decimal digit. -/
def isDigitChar (c : Char) : Bool := 48 ≤ c.toNat && c.toNat ≤ 57

/-- Fuel-driven digit extraction (structural, so that concrete values reduce
under kernel evaluation); `natDigits` supplies sufficient fuel. -/
def natDigitsFuel : Nat → Nat → List Char
  | 0, _ => []
  | f + 1, n =>
    if n < 10 then [digitChar n]
    else natDigitsFuel f (n / 10) ++ [digitChar (n % 10)]

/-- Big-endian decimal digit characters of a natural number; models Python
`str(n)` for a nonnegative integer. -/
def natDigits (n : Nat) : List Char := natDigitsFuel (n + 1) n

/-- Python `str(n)` for a natural number, as a Lean string. -/
def natStr (n : Nat) : String := ⟨natDigits n⟩

/-- Python `f"{n:02d}"`: two-digit zero-padded decimal (no truncation above 99). -/
def pad2 (n : Nat) : String := (if n < 10 then "0" else "") ++ natStr n

/-- Python `f"{n:04d}"`: four-digit zero-padded decimal (no truncation above 9999). -/
def pad4 (n : Nat) : String :=
  (if n < 10 then "000" else if n < 100 then "00" else if n < 1000 then "0" else "") ++
    natStr n

/-- A Python `datetime.date` value (calendar fields, unvalidated in the
model; Python's constructor guarantees real ranges). -/
structure PyDate where
  y : Nat
  m : Nat
  d : Nat
  deriving DecidableEq, Repr

/-- A Python `datetime.datetime` value at whole-second granularity. -/
structure PyDateTime where
  y : Nat
  mo : Nat
  dd : Nat
  hh : Nat
  mi : Nat
  ss : Nat
  deriving DecidableEq, Repr

/-- Bounds under which the zero-padded rendering of a date is the canonical
10-character ISO form (Python dates always satisfy them). -/
def DateBounded (dt : PyDate) : Prop := dt.y < 10000 ∧ dt.m < 100 ∧ dt.d < 100

/-- Bounds under which the rendering of a datetime is the canonical
19-character form (Python datetimes always satisfy them). -/
def DTBounded (t : PyDateTime) : Prop :=
  t.y < 10000 ∧ t.mo < 100 ∧ t.dd < 100 ∧ t.hh < 100 ∧ t.mi < 100 ∧ t.ss < 100

instance (dt : PyDate) : Decidable (DateBounded dt) := by
  unfold DateBounded; infer_instance

instance (t : PyDateTime) : Decidable (DTBounded t) := by
  unfold DTBounded; infer_instance

/-- Python `date.isoformat()`: the string `YYYY-MM-DD`. -/
def isoDate (dt : PyDate) : String :=
  pad4 dt.y ++ "-" ++ pad2 dt.m ++ "-" ++ pad2 dt.d

/-- Python `str(datetime)`: `YYYY-MM-DD HH:MM:SS` (second granularity). -/
def strDateTime (t : PyDateTime) : String :=
  pad4 t.y ++ "-" ++ pad2 t.mo ++ "-" ++ pad2 t.dd ++ " " ++
    pad2 t.hh ++ ":" ++ pad2 t.mi ++ ":" ++ pad2 t.ss

/-- Python `datetime.isoformat()`: `YYYY-MM-DDTHH:MM:SS` (second granularity). -/
def isoDateTime (t : PyDateTime) : String :=
  pad4 t.y ++ "-" ++ pad2 t.mo ++ "-" ++ pad2 t.dd ++ "T" ++
    pad2 t.hh ++ ":" ++ pad2 t.mi ++ ":" ++ pad2 t.ss

/-- The calendar date of a datetime (Python `datetime.date()`). -/
def PyDateTime.dateOf (t : PyDateTime) : PyDate := ⟨t.y, t.mo, t.dd⟩

/-- Model of `datetime.fromisoformat` restricted to a date string followed by
`.date()`: accepts the canonical `YYYY-MM-DD` form (strict ISO parsing as in
Python ≤ 3.10); any other string raises `ValueError`, modelled as `none`. -/
def parseIsoDate (s : String) : Option PyDate :=
  match s.data with
  | [y1, y2, y3, y4, c1, m1, m2, c2, d1, d2] =>
    if c1 = '-' ∧ c2 = '-' ∧ isDigitChar y1 ∧ isDigitChar y2 ∧ isDigitChar y3 ∧
        isDigitChar y4 ∧ isDigitChar m1 ∧ isDigitChar m2 ∧ isDigitChar d1 ∧
        isDigitChar d2 then
      some ⟨digitVal y1 * 1000 + digitVal y2 * 100 + digitVal y3 * 10 + digitVal y4,
        digitVal m1 * 10 + digitVal m2, digitVal d1 * 10 + digitVal d2⟩
    else none
  | _ => none

/-- Model of ISO datetime parsing (pydantic / `datetime.fromisoformat` on the
canonical `YYYY-MM-DDTHH:MM:SS` form); any other string fails. -/
def parseIsoDateTime (s : String) : Option PyDateTime :=
  match s.data with
  | [y1, y2, y3, y4, c1, m1, m2, c2, d1, d2, ct, h1, h2, c3, i1, i2, c4, s1, s2] =>
    if c1 = '-' ∧ c2 = '-' ∧ ct = 'T' ∧ c3 = ':' ∧ c4 = ':' ∧
        isDigitChar y1 ∧ isDigitChar y2 ∧ isDigitChar y3 ∧ isDigitChar y4 ∧
        isDigitChar m1 ∧ isDigitChar m2 ∧ isDigitChar d1 ∧ isDigitChar d2 ∧
        isDigitChar h1 ∧ isDigitChar h2 ∧ isDigitChar i1 ∧ isDigitChar i2 ∧
        isDigitChar s1 ∧ isDigitChar s2 then
      some ⟨digitVal y1 * 1000 + digitVal y2 * 100 + digitVal y3 * 10 + digitVal y4,
        digitVal m1 * 10 + digitVal m2, digitVal d1 * 10 + digitVal d2,
        digitVal h1 * 10 + digitVal h2, digitVal i1 * 10 + digitVal i2,
        digitVal s1 * 10 + digitVal s2⟩
    else none
  | _ => none

/-- A decoded JSON value, as produced by `json.loads`. -/
inductive JVal where
  | null
  | jbool (b : Bool)
  | jstr (s : String)
  | jnum (n : Int)
  | jarr (l : List JVal)
  | jobj (l : List (String × JVal))

/-- Python truthiness of a decoded JSON value (`if cached:`). -/
def truthyJ : JVal → Bool
  | .null => false
  | .jbool b => b
  | .jstr s => s != ""
  | .jnum n => n != 0
  | .jarr l => !l.isEmpty
  | .jobj l => !l.isEmpty

/-- A Python value passed to `set_cache` (only the JSON-serialisable shapes
the application uses). -/
inductive PyVal where
  | pstr (s : String)
  | pint (n : Int)
  | pdate (d : PyDate)
  | pdatetime (t : PyDateTime)
  | plist (l : List PyVal)
  | pdict (l : List (String × PyVal))

mutual

/-- The JSON value denoted by `json.dumps(v, cls=CustomJSONEncoder)`:
`CustomJSONEncoder.default` renders `date` and `datetime` objects as their
ISO-8601 `isoformat()` strings, everything else is standard JSON. -/
def pyToJ : PyVal → JVal
  | .pstr s => .jstr s
  | .pint n => .jnum n
  | .pdate d => .jstr (isoDate d)
  | .pdatetime t => .jstr (isoDateTime t)
  | .plist l => .jarr (pyToJList l)
  | .pdict l => .jobj (pyToJPairs l)

def pyToJList : List PyVal → List JVal
  | [] => []
  | v :: vs => pyToJ v :: pyToJList vs

def pyToJPairs : List (String × PyVal) → List (String × JVal)
  | [] => []
  | (k, v) :: vs => (k, pyToJ v) :: pyToJPairs vs

end

/-- What Redis physically holds for a key: either the JSON text produced by
the encoder (kept here in decoded form; `json.loads` of the stored text is
modelled as exact), or a scalar written as-is. -/
inductive StoredVal where
  | text (j : JVal)
  | rawStr (s : String)
  | rawInt (n : Int)

/-- A cache entry: stored value plus optional absolute expiry deadline
(Redis `ex=` seconds converted to an absolute instant). -/
structure CacheEntry where
  val : StoredVal
  deadline : Option Nat

/-- The Redis client state: whether `get_redis_pool` yields a connection,
whether calls on it raise, and the keyed entries. -/
structure Redis where
  avail : Bool
  failing : Bool
  store : List (String × CacheEntry)

/-- An entry is live at `now` if it has no deadline or the deadline has not
yet been reached. -/
def aliveAt (deadline : Option Nat) (now : Nat) : Bool :=
  match deadline with
  | none => true
  | some dl => now < dl

/-- The branch in `set_cache` choosing between serialization and raw storage:
`isinstance(value, (dict, list, date, datetime))` selects JSON encoding. -/
def encodeStored : PyVal → StoredVal
  | .plist l => .text (pyToJ (.plist l))
  | .pdict l => .text (pyToJ (.pdict l))
  | .pdate d => .text (pyToJ (.pdate d))
  | .pdatetime t => .text (pyToJ (.pdatetime t))
  | .pstr s => .rawStr s
  | .pint n => .rawInt n

/-- Embedding of `app/cache.py` `set_cache`: no-op with a warning when Redis
is unavailable, silent skip when the call raises; otherwise overwrites the
key with the encoded value, using `ex = expire` only when `expire > 0` and no
expiry otherwise. -/
def set_cache (r : Redis) (key : String) (value : PyVal) (expire : Int)
    (now : Nat) : Redis :=
  if !r.avail then r
  else if r.failing then r
  else
    { r with store :=
        (key, ⟨encodeStored value, if expire > 0 then some (now + expire.toNat) else none⟩) ::
          r.store.filter (fun p => p.1 != key) }

/-- The value `get_cache` yields from a live stored entry: JSON text decodes
back to its structured value; a nonempty raw string that is not JSON is
returned unchanged; a raw integer string parses as a JSON number; an empty
raw string is falsy (`if value:`) and yields `None`. -/
def decodeStored : StoredVal → Option JVal
  | .text j => some j
  | .rawStr s => if s = "" then none else some (.jstr s)
  | .rawInt n => some (.jnum n)

/-- Embedding of `app/cache.py` `get_cache`: `None` when Redis is unavailable
or the call raises; otherwise the decoded stored value if the key is present
and unexpired. -/
def get_cache (r : Redis) (key : String) (now : Nat) : Option JVal :=
  if !r.avail then none
  else if r.failing then none
  else
    match r.store.lookup key with
    | none => none
    | some e => if aliveAt e.deadline now then decodeStored e.val else none

/-- Embedding of `app/cache.py` `flush_cache`: no-op when Redis is
unavailable or the call raises, otherwise removes every entry. -/
def flush_cache (r : Redis) : Redis :=
  if !r.avail then r
  else if r.failing then r
  else { r with store := [] }

/-- Modelled from the spec: one row of the trading-results store
(`models.SpimexTradingResultAsync`; `app/models.py` is not part of the
sources, its columns are taken from the spec's store contract: oil type,
delivery type, delivery basis, date, and numeric fields). -/
structure Row where
  oil_id : String
  delivery_type_id : String
  delivery_basis_id : String
  date : PyDateTime
  volume : Int
  price : Int
  count : Int
  deriving DecidableEq, Repr

/-- Modelled from the spec: the public result shape (`schemas.TradingResult`;
`app/schemas.py` is not part of the sources). Field-for-field image of a
store row, per the spec's Result Mapper. -/
structure TradingResult where
  oil_id : String
  delivery_type_id : String
  delivery_basis_id : String
  date : PyDateTime
  volume : Int
  price : Int
  count : Int
  deriving DecidableEq, Repr

/-- The Result Mapper `TradingResult.from_orm`: pure field-for-field copy. -/
def fromOrm (r : Row) : TradingResult :=
  ⟨r.oil_id, r.delivery_type_id, r.delivery_basis_id, r.date, r.volume,
    r.price, r.count⟩

/-- `result.dict()`: the Python dict of a `TradingResult`, in field order. -/
def trToPy (t : TradingResult) : PyVal :=
  .pdict [("oil_id", .pstr t.oil_id),
          ("delivery_type_id", .pstr t.delivery_type_id),
          ("delivery_basis_id", .pstr t.delivery_basis_id),
          ("date", .pdatetime t.date),
          ("volume", .pint t.volume),
          ("price", .pint t.price),
          ("count", .pint t.count)]

/-- Modelled from the spec: pydantic reconstruction `TradingResult(**item)`
from a decoded JSON object — requires every field present with the right
shape, parses the date from its ISO string, ignores extra keys; any failure
is an exception (caught by the repository). -/
def parseTR (j : JVal) : Option TradingResult :=
  match j with
  | .jobj fields =>
    match fields.lookup ("oil_id"), fields.lookup ("delivery_type_id"),
        fields.lookup ("delivery_basis_id"), fields.lookup ("date"),
        fields.lookup ("volume"), fields.lookup ("price"),
        fields.lookup ("count") with
    | some (.jstr o), some (.jstr dt), some (.jstr db2), some (.jstr ds),
        some (.jnum v), some (.jnum p), some (.jnum c) =>
      match parseIsoDateTime ds with
      | some d => some ⟨o, dt, db2, d, v, p, c⟩
      | none => none
    | _, _, _, _, _, _, _ => none
  | _ => none

/-- Mixed-radix encoding of a datetime; on calendar-valid values (months
below 13, days below 32, hours below 24, minutes and seconds below 60) it is
order-isomorphic to Python's field-lexicographic datetime comparison. -/
def dtToNat (t : PyDateTime) : Nat :=
  ((((t.y * 13 + t.mo) * 32 + t.dd) * 24 + t.hh) * 60 + t.mi) * 60 + t.ss

/-- Descending-date comparison used to model `order_by(date.desc())`. -/
def dateDesc (a b : Row) : Prop := dtToNat b.date ≤ dtToNat a.date

instance : DecidableRel dateDesc := fun a b => Nat.decLe _ _

instance : IsTotal Row dateDesc := ⟨fun a b => Nat.le_total (dtToNat b.date) (dtToNat a.date)⟩

instance : IsTrans Row dateDesc :=
  ⟨fun a b c h1 h2 => Nat.le_trans h2 h1⟩

/-- Descending comparison on datetimes, for the distinct-dates query. -/
def dtDesc (a b : PyDateTime) : Prop := dtToNat b ≤ dtToNat a

instance : DecidableRel dtDesc := fun a b => Nat.decLe _ _

instance : IsTotal PyDateTime dtDesc := ⟨fun a b => Nat.le_total (dtToNat b) (dtToNat a)⟩

instance : IsTrans PyDateTime dtDesc :=
  ⟨fun a b c h1 h2 => Nat.le_trans h2 h1⟩

/-- Embedding of `crud.get_last_trading_dates` (the identical query is inlined
in `TradingRepository.get_last_trading_dates`): distinct trade datetimes,
descending, limited to `limit`, then `.date()` of each row. -/
def crud_get_last_trading_dates (db : List Row) (limit : Nat) : List PyDate :=
  ((((db.map (fun r => r.date)).dedup).insertionSort dtDesc).take limit).map
    PyDateTime.dateOf

/-- Python truthiness of an `Optional[str]` filter (`if oil_id:`): absent or
empty string is falsy. -/
def providedStr (o : Option String) : Bool :=
  match o with
  | none => false
  | some s => s != ""

/-- The filter list built by `crud.get_dynamics` and
`TradingRepository.get_dynamics`: one conjunct appended per truthy parameter
(datetimes are always truthy when present). -/
def dynamicsFilters (oil dt dbs : Option String) (sd ed : Option PyDateTime) :
    List (Row → Bool) :=
  (match oil with
    | some s => if s != "" then [fun r => r.oil_id == s] else []
    | none => []) ++
  (match dt with
    | some s => if s != "" then [fun r => r.delivery_type_id == s] else []
    | none => []) ++
  (match dbs with
    | some s => if s != "" then [fun r => r.delivery_basis_id == s] else []
    | none => []) ++
  (match sd with
    | some t => [fun r => dtToNat t ≤ dtToNat r.date]
    | none => []) ++
  (match ed with
    | some t => [fun r => dtToNat r.date ≤ dtToNat t]
    | none => [])

/-- Embedding of `crud.get_dynamics` (the identical query is inlined in
`TradingRepository.get_dynamics`): conditional filters, `where` applied only
when the filter list is nonempty, descending by date, no limit. -/
def crud_get_dynamics (db : List Row) (oil dt dbs : Option String)
    (sd ed : Option PyDateTime) : List Row :=
  let fs := dynamicsFilters oil dt dbs sd ed
  let q := if fs.isEmpty then db else db.filter (fun r => fs.all (fun f => f r))
  q.insertionSort dateDesc

/-- Embedding of `crud.get_trading_results`: unconditional conjunction of the
three equality filters (`and_`), descending by date, limited. -/
def crud_get_trading_results (db : List Row) (oil dt dbs : String)
    (limit : Nat) : List Row :=
  ((db.filter (fun r =>
      r.oil_id == oil && r.delivery_type_id == dt &&
        r.delivery_basis_id == dbs)).insertionSort dateDesc).take limit

/-- The filter list built by `TradingRepository.get_trading_results`
(conditional, unlike the crud variant). -/
def repoTradingFilters (oil dt dbs : Option String) : List (Row → Bool) :=
  (match oil with
    | some s => if s != "" then [fun r => r.oil_id == s] else []
    | none => []) ++
  (match dt with
    | some s => if s != "" then [fun r => r.delivery_type_id == s] else []
    | none => []) ++
  (match dbs with
    | some s => if s != "" then [fun r => r.delivery_basis_id == s] else []
    | none => [])

/-- The store query inside `TradingRepository.get_trading_results`:
conditional filters, descending by date, limited. -/
def repo_trading_results_query (db : List Row) (oil dt dbs : Option String)
    (limit : Nat) : List Row :=
  let fs := repoTradingFilters oil dt dbs
  let q := if fs.isEmpty then db else db.filter (fun r => fs.all (fun f => f r))
  (q.insertionSort dateDesc).take limit

/-- Python f-string rendering of an `Optional[str]` parameter: `None` renders
as the four characters `None`. -/
def renderOptStr (o : Option String) : String :=
  match o with
  | none => "None"
  | some s => s

/-- Python f-string rendering of an `Optional[datetime]` parameter. -/
def renderOptDT (o : Option PyDateTime) : String :=
  match o with
  | none => "None"
  | some t => strDateTime t

/-- The cache key `f"last_trading_dates:{limit}"`. -/
def last_trading_dates_cache_key (limit : Nat) : String :=
  "last_trading_dates" ++ ":" ++ natStr limit

/-- The cache key
`f"dynamics:{oil_id}:{delivery_type_id}:{delivery_basis_id}:{start_date}:{end_date}"`. -/
def dynamics_cache_key (oil dt dbs : Option String) (sd ed : Option PyDateTime) :
    String :=
  "dynamics" ++ ":" ++ renderOptStr oil ++ ":" ++ renderOptStr dt ++ ":" ++
    renderOptStr dbs ++ ":" ++ renderOptDT sd ++ ":" ++ renderOptDT ed

/-- The cache key
`f"trading_results:{oil_id}:{delivery_type_id}:{delivery_basis_id}:{limit}"`. -/
def trading_results_cache_key (oil dt dbs : Option String) (limit : Nat) :
    String :=
  "trading_results" ++ ":" ++ renderOptStr oil ++ ":" ++ renderOptStr dt ++ ":" ++
    renderOptStr dbs ++ ":" ++ natStr limit

/-- Python exception classes distinguished by
`TradingRepository.get_last_trading_dates`, whose `except` clause catches
only `ValueError`. -/
inductive RecErr where
  | typeErr
  | valErr
  deriving DecidableEq, Repr

/-- One step of `[datetime.fromisoformat(s).date() for s in cached]` over a
decoded JSON array: a non-string element makes `fromisoformat` raise
`TypeError`, an unparsable string raises `ValueError`; elements are consumed
in order and the first failure wins. -/
def recDatesList : List JVal → Except RecErr (List PyDate)
  | [] => .ok []
  | .jstr s :: rest =>
    match parseIsoDate s with
    | some d =>
      match recDatesList rest with
      | .ok ds => .ok (d :: ds)
      | .error e => .error e
    | none => .error .valErr
  | _ :: _ => .error .typeErr

/-- Iterating a decoded JSON object yields its keys (strings), as Python dict
iteration does. -/
def recDatesKeys : List (String × JVal) → Except RecErr (List PyDate)
  | [] => .ok []
  | (k, _) :: rest =>
    match parseIsoDate k with
    | some d =>
      match recDatesKeys rest with
      | .ok ds => .ok (d :: ds)
      | .error e => .error e
    | none => .error .valErr

/-- Reconstruction of the dates payload in
`TradingRepository.get_last_trading_dates`: the comprehension iterates the
cached value, so arrays iterate elements, strings iterate characters (every
single character fails ISO parsing with `ValueError`), dicts iterate keys,
and non-iterable values raise `TypeError`. -/
def reconstructDates (j : JVal) : Except RecErr (List PyDate) :=
  match j with
  | .jarr l => recDatesList l
  | .jstr s => if s = "" then .ok [] else .error .valErr
  | .jobj l => recDatesKeys l
  | _ => .error .typeErr

/-- Reconstruction of one `TradingResult(**item)` list, first failure wins;
the repository catches every exception here, so failures are not
distinguished. -/
def parseTRList : List JVal → Option (List TradingResult)
  | [] => some []
  | j :: rest =>
    match parseTR j with
    | some t =>
      match parseTRList rest with
      | some ts => some (t :: ts)
      | none => none
    | none => none

/-- Reconstruction of the results payload in
`TradingRepository.get_dynamics` / `get_trading_results`
(`[TradingResult(**item) for item in cached]`): only an array of well-formed
objects succeeds; iterating a string or a dict feeds strings to `**`, and
non-iterables raise — all caught alike. -/
def reconstructResults (j : JVal) : Option (List TradingResult) :=
  match j with
  | .jarr l => parseTRList l
  | .jstr s => if s = "" then some [] else none
  | .jobj l => if l.isEmpty then some [] else none
  | _ => none

/-- Embedding of `TradingRepository.get_last_trading_dates`: read-through on
the dates key; a truthy cache hit is reconstructed, `ValueError` triggers a
full flush and a fall-through to the store, any other exception propagates;
on the store path the dates are fetched, cached with
`expire=get_seconds_until_flush()`, and returned. The `Nat` component counts
trading-store queries. -/
def repo_get_last_trading_dates (db : List Row) (r : Redis) (now : Nat)
    (limit : Nat) : Except RecErr (List PyDate × Redis × Nat) :=
  let key := last_trading_dates_cache_key limit
  let fetch := fun (r1 : Redis) =>
    let dates := crud_get_last_trading_dates db limit
    let r2 := set_cache r1 key (.plist (dates.map (fun d => .pstr (isoDate d))))
      (get_seconds_until_flush now) now
    Except.ok (dates, r2, 1)
  match get_cache r key now with
  | some j =>
    if truthyJ j then
      match reconstructDates j with
      | .ok ds => .ok (ds, r, 0)
      | .error .valErr => fetch (flush_cache r)
      | .error .typeErr => .error .typeErr
    else fetch r
  | none => fetch r

/-- Embedding of `TradingRepository.get_dynamics`: read-through on the
dynamics key; any reconstruction failure triggers a full flush and a
fall-through; on the store path rows are queried, mapped through `from_orm`,
cached as a list of dicts with `expire=get_seconds_until_flush()`, and
returned. The `Nat` component counts trading-store queries. -/
def repo_get_dynamics (db : List Row) (r : Redis) (now : Nat)
    (oil dt dbs : Option String) (sd ed : Option PyDateTime) :
    List TradingResult × Redis × Nat :=
  let key := dynamics_cache_key oil dt dbs sd ed
  let fetch := fun (r1 : Redis) =>
    let results := (crud_get_dynamics db oil dt dbs sd ed).map fromOrm
    let r2 := set_cache r1 key (.plist (results.map trToPy))
      (get_seconds_until_flush now) now
    (results, r2, 1)
  match get_cache r key now with
  | some j =>
    if truthyJ j then
      match reconstructResults j with
      | some ts => (ts, r, 0)
      | none => fetch (flush_cache r)
    else fetch r
  | none => fetch r

/-- Embedding of `TradingRepository.get_trading_results`: identical protocol
to `get_dynamics` over the trading-results key and the limited query. -/
def repo_get_trading_results (db : List Row) (r : Redis) (now : Nat)
    (oil dt dbs : Option String) (limit : Nat) :
    List TradingResult × Redis × Nat :=
  let key := trading_results_cache_key oil dt dbs limit
  let fetch := fun (r1 : Redis) =>
    let results := (repo_trading_results_query db oil dt dbs limit).map fromOrm
    let r2 := set_cache r1 key (.plist (results.map trToPy))
      (get_seconds_until_flush now) now
    (results, r2, 1)
  match get_cache r key now with
  | some j =>
    if truthyJ j then
      match reconstructResults j with
      | some ts => (ts, r, 0)
      | none => fetch (flush_cache r)
    else fetch r
  | none => fetch r

/-- Whether a stored value was written as-is (raw scalar) rather than
serialized to the JSON text encoding. -/
def isRawStored : StoredVal → Bool
  | .text _ => false
  | .rawStr _ => true
  | .rawInt _ => true

/-- Whether an entry carries an expiry deadline no later than instant `t`. -/
def expiryWithinB (e : CacheEntry) (t : Nat) : Bool :=
  match e.deadline with
  | some dl => dl ≤ t
  | none => false

/-- A concrete row used by the counterexamples. -/
def exRow1 : Row := ⟨"A", "T", "B", ⟨2024, 5, 1, 0, 0, 0⟩, 1, 2, 3⟩

/-- The conjunction of the provided dynamics filters, spelled per filter:
oil type, delivery type and delivery basis constrain only when provided and
nonempty; the date bounds constrain whenever provided. -/
def matchesDynamics (oil dt dbs : Option String) (sd ed : Option PyDateTime)
    (r : Row) : Bool :=
  (match oil with
    | some s => if s != "" then r.oil_id == s else true
    | none => true) &&
  (match dt with
    | some s => if s != "" then r.delivery_type_id == s else true
    | none => true) &&
  (match dbs with
    | some s => if s != "" then r.delivery_basis_id == s else true
    | none => true) &&
  (match sd with
    | some t => decide (dtToNat t ≤ dtToNat r.date)
    | none => true) &&
  (match ed with
    | some t => decide (dtToNat r.date ≤ dtToNat t)
    | none => true)

/-- Example rows for the trading-results scenario of the spec: three rows
matching oil `A100`, delivery type `T1`, basis `B1`, dated 2024-05-01,
2024-05-02, 2024-05-03. -/
def exTR1 : Row := ⟨"A100", "T1", "B1", ⟨2024, 5, 1, 0, 0, 0⟩, 10, 100, 1⟩

def exTR2 : Row := ⟨"A100", "T1", "B1", ⟨2024, 5, 2, 0, 0, 0⟩, 20, 200, 2⟩

def exTR3 : Row := ⟨"A100", "T1", "B1", ⟨2024, 5, 3, 0, 0, 0⟩, 30, 300, 3⟩

/-- A cache whose dates entry holds a malformed (but string-element) payload:
reconstruction raises `ValueError`. -/
def corruptValRedis : Redis :=
  ⟨true, false, [(last_trading_dates_cache_key 5,
    ⟨.text (.jarr [.jstr ("bad")]), none⟩)]⟩

/-- A cache whose dates entry holds a payload with a non-string element:
`datetime.fromisoformat(1)` raises `TypeError`, which the dates operation
does not catch. -/
def corruptTypeRedis : Redis :=
  ⟨true, false, [(last_trading_dates_cache_key 5,
    ⟨.text (.jarr [.jnum 1]), none⟩)]⟩

/-- The cache state after caching an empty dynamics result at t = 0. -/
def dynRedis1 : Redis :=
  ⟨true, false, [(dynamics_cache_key none none none none none,
    ⟨.text (.jarr []), some 51060⟩)]⟩

/-- Split a character list into its colon-separated chunks (empty chunks
preserved); the decoding direction used to analyse cache-key collisions. -/
def splitColon : List Char → List (List Char)
  | [] => [[]]
  | c :: cs =>
    if c = ':' then [] :: splitColon cs
    else
      match splitColon cs with
      | [] => [[c]]
      | t :: ts => (c :: t) :: ts

/-- The colon-free leading chunk `YYYY-MM-DD HH` of `str(datetime)`. -/
def dtChunk1 (t : PyDateTime) : List Char :=
  (pad4 t.y ++ "-" ++ pad2 t.mo ++ "-" ++ pad2 t.dd ++ " " ++ pad2 t.hh).data

/-- A string filter parameter whose rendering cannot collide with the `None`
sentinel or leak a separator: distinct from the literal `None` and
colon-free. -/
def GoodParam : Option String → Prop
  | none => True
  | some s => ¬s = "None" ∧ ':' ∉ s.data

/-- A datetime parameter within Python's constructor-enforced field bounds. -/
def GoodDT : Option PyDateTime → Prop
  | none => True
  | some t => DTBounded t

/-- C3: for every clock value `now`, the computed wait is 14:11 today minus
`now` when `now` is before today's 14:11, is 14:11 tomorrow minus `now` when
`now` is after today's 14:11, and is nonnegative in all cases. -/
theorem c3_scheduler_wait (now : Nat) :
    (now < now / daySec * daySec + cutoverSec →
      get_seconds_until_flush now =
        ((now / daySec * daySec + cutoverSec : Nat) : Int) - (now : Int)) ∧
    (now / daySec * daySec + cutoverSec < now →
      get_seconds_until_flush now =
        ((now / daySec * daySec + cutoverSec + daySec : Nat) : Int) - (now : Int)) ∧
    0 ≤ get_seconds_until_flush now := by
  unfold get_seconds_until_flush flushInstant
  simp only [daySec, cutoverSec]
  split <;> push_cast <;> omega

/-- Closed witness for `c3_scheduler_wait` at sample clock values on either
side of the cutover. -/
theorem c3_scheduler_wait_witness :
    get_seconds_until_flush 1000 = ((51060 : Nat) : Int) - ((1000 : Nat) : Int) ∧
    get_seconds_until_flush 60000 = ((51060 + 86400 : Nat) : Int) - ((60000 : Nat) : Int) := by
  constructor
  · have h := (c3_scheduler_wait 1000).1 (by decide)
    simpa using h
  · have h := (c3_scheduler_wait 60000).2.1 (by decide)
    simpa using h

theorem natDigitsFuel_irrel {n : Nat} :
    ∀ {f1 f2 : Nat}, n < f1 → n < f2 → natDigitsFuel f1 n = natDigitsFuel f2 n := by
  induction n using Nat.strong_induction_on with
  | _ n ih =>
    intro f1 f2 h1 h2
    match f1, f2 with
    | g1 + 1, g2 + 1 =>
      by_cases h10 : n < 10
      · simp [natDigitsFuel, h10]
      · simp only [natDigitsFuel, h10, if_false]
        have hlt : n / 10 < n := Nat.div_lt_self (by omega) (by omega)
        rw [ih (n / 10) hlt (show n / 10 < g1 by omega) (show n / 10 < g2 by omega)]

theorem natDigits_lt10 {n : Nat} (h : n < 10) : natDigits n = [digitChar n] := by
  simp [natDigits, natDigitsFuel, h]

theorem natDigits_ge10 {n : Nat} (h : 10 ≤ n) :
    natDigits n = natDigits (n / 10) ++ [digitChar (n % 10)] := by
  have hlt : n / 10 < n := Nat.div_lt_self (by omega) (by omega)
  conv_lhs => rw [natDigits]
  rw [show natDigitsFuel (n + 1) n =
      natDigitsFuel n (n / 10) ++ [digitChar (n % 10)] by
    simp [natDigitsFuel, Nat.not_lt.2 h]]
  rw [natDigitsFuel_irrel (show n / 10 < n by omega) (show n / 10 < n / 10 + 1 by omega)]
  rfl

theorem natDigits_ne_nil (n : Nat) : natDigits n ≠ [] := by
  by_cases h : n < 10
  · rw [natDigits_lt10 h]; simp
  · rw [natDigits_ge10 (Nat.not_lt.1 h)]; simp

theorem digitVal_digitChar {n : Nat} (h : n < 10) : digitVal (digitChar n) = n := by
  interval_cases n <;> decide

theorem isDigitChar_digitChar {n : Nat} (h : n < 10) :
    isDigitChar (digitChar n) = true := by
  interval_cases n <;> decide

theorem digitChar_inj {a b : Nat} (ha : a < 10) (hb : b < 10)
    (h : digitChar a = digitChar b) : a = b := by
  have := digitVal_digitChar ha
  have := digitVal_digitChar hb
  rw [h] at *
  omega

theorem natDigits_inj {a b : Nat} (h : natDigits a = natDigits b) : a = b := by
  induction a using Nat.strong_induction_on generalizing b with
  | _ a ih =>
    by_cases ha : a < 10 <;> by_cases hb : b < 10
    · rw [natDigits_lt10 ha, natDigits_lt10 hb] at h
      exact digitChar_inj ha hb (List.singleton_injective h)
    · rw [natDigits_lt10 ha, natDigits_ge10 (Nat.not_lt.1 hb)] at h
      have hlen := congrArg List.length h
      simp at hlen
      exact absurd hlen (natDigits_ne_nil _)
    · rw [natDigits_ge10 (Nat.not_lt.1 ha), natDigits_lt10 hb] at h
      have hlen := congrArg List.length h
      simp at hlen
      exact absurd hlen (natDigits_ne_nil _)
    · rw [natDigits_ge10 (Nat.not_lt.1 ha), natDigits_ge10 (Nat.not_lt.1 hb)] at h
      have hparts := List.append_inj' h (by simp)
      have h1 : a / 10 = b / 10 :=
        ih (a / 10) (Nat.div_lt_self (by omega) (by omega)) hparts.1
      have h2 : a % 10 = b % 10 :=
        digitChar_inj (Nat.mod_lt _ (by omega)) (Nat.mod_lt _ (by omega))
          (List.singleton_injective hparts.2)
      omega

theorem natStr_inj {a b : Nat} (h : natStr a = natStr b) : a = b := by
  apply natDigits_inj
  have := congrArg String.data h
  simpa [natStr] using this

theorem data_append (a b : String) : (a ++ b).data = a.data ++ b.data := rfl

theorem natDigits_eq2 {n : Nat} (h1 : 10 ≤ n) (h2 : n < 100) :
    natDigits n = [digitChar (n / 10), digitChar (n % 10)] := by
  rw [natDigits_ge10 h1, natDigits_lt10 (by omega)]
  rfl

theorem natDigits_eq3 {n : Nat} (h1 : 100 ≤ n) (h2 : n < 1000) :
    natDigits n = [digitChar (n / 100), digitChar (n / 10 % 10), digitChar (n % 10)] := by
  rw [natDigits_ge10 (by omega), natDigits_eq2 (by omega) (by omega)]
  have e1 : n / 10 / 10 = n / 100 := by omega
  rw [e1]
  rfl

theorem natDigits_eq4 {n : Nat} (h1 : 1000 ≤ n) (h2 : n < 10000) :
    natDigits n = [digitChar (n / 1000), digitChar (n / 100 % 10),
      digitChar (n / 10 % 10), digitChar (n % 10)] := by
  rw [natDigits_ge10 (by omega), natDigits_eq3 (by omega) (by omega)]
  have e1 : n / 10 / 100 = n / 1000 := by omega
  have e2 : n / 10 / 10 % 10 = n / 100 % 10 := by omega
  rw [e1, e2]
  rfl

theorem zeroDigitChar : '0' = digitChar 0 := by decide

theorem pad2_data {n : Nat} (h : n < 100) :
    (pad2 n).data = [digitChar (n / 10), digitChar (n % 10)] := by
  by_cases h10 : n < 10
  · have hd : n / 10 = 0 := by omega
    have hm : n % 10 = n := by omega
    rw [hd, hm, ← zeroDigitChar]
    simp [pad2, h10, data_append, natStr, natDigits_lt10 h10]
  · simp [pad2, h10, data_append, natStr, natDigits_eq2 (by omega) h]

theorem pad4_data {n : Nat} (h : n < 10000) :
    (pad4 n).data = [digitChar (n / 1000), digitChar (n / 100 % 10),
      digitChar (n / 10 % 10), digitChar (n % 10)] := by
  by_cases h1 : n < 10
  · have e1 : n / 1000 = 0 := by omega
    have e2 : n / 100 % 10 = 0 := by omega
    have e3 : n / 10 % 10 = 0 := by omega
    have e4 : n % 10 = n := by omega
    rw [e1, e2, e3, e4, ← zeroDigitChar]
    simp [pad4, h1, data_append, natStr, natDigits_lt10 h1]
  · by_cases h2 : n < 100
    · have e1 : n / 1000 = 0 := by omega
      have e2 : n / 100 % 10 = 0 := by omega
      have e3 : n / 10 % 10 = n / 10 := by omega
      rw [e1, e2, e3, ← zeroDigitChar]
      simp [pad4, h1, h2, data_append, natStr, natDigits_eq2 (by omega) h2]
    · by_cases h3 : n < 1000
      · have e1 : n / 1000 = 0 := by omega
        have e2 : n / 100 % 10 = n / 100 := by omega
        rw [e1, e2, ← zeroDigitChar]
        simp [pad4, h1, h2, h3, data_append, natStr, natDigits_eq3 (by omega) h3]
      · simp [pad4, h1, h2, h3, data_append, natStr, natDigits_eq4 (by omega) h]

theorem isoDate_data {dt : PyDate} (h : DateBounded dt) :
    (isoDate dt).data =
      [digitChar (dt.y / 1000), digitChar (dt.y / 100 % 10),
       digitChar (dt.y / 10 % 10), digitChar (dt.y % 10), '-',
       digitChar (dt.m / 10), digitChar (dt.m % 10), '-',
       digitChar (dt.d / 10), digitChar (dt.d % 10)] := by
  obtain ⟨hy, hm, hd⟩ := h
  simp [isoDate, data_append, pad4_data hy, pad2_data hm, pad2_data hd]

/-- Reconstructing a date from its `isoformat` string succeeds and returns the
same date (the round trip `datetime.fromisoformat(d.isoformat()).date() = d`). -/
theorem parseIsoDate_isoDate {dt : PyDate} (h : DateBounded dt) :
    parseIsoDate (isoDate dt) = some dt := by
  obtain ⟨y, m, d⟩ := dt
  obtain ⟨hy, hm, hd⟩ := h
  simp only [] at hy hm hd
  unfold parseIsoDate
  rw [isoDate_data ⟨hy, hm, hd⟩]
  simp [isDigitChar_digitChar (show y / 1000 < 10 by omega),
    isDigitChar_digitChar (show y / 100 % 10 < 10 by omega),
    isDigitChar_digitChar (show y / 10 % 10 < 10 by omega),
    isDigitChar_digitChar (show y % 10 < 10 by omega),
    isDigitChar_digitChar (show m / 10 < 10 by omega),
    isDigitChar_digitChar (show m % 10 < 10 by omega),
    isDigitChar_digitChar (show d / 10 < 10 by omega),
    isDigitChar_digitChar (show d % 10 < 10 by omega),
    digitVal_digitChar (show y / 1000 < 10 by omega),
    digitVal_digitChar (show y / 100 % 10 < 10 by omega),
    digitVal_digitChar (show y / 10 % 10 < 10 by omega),
    digitVal_digitChar (show y % 10 < 10 by omega),
    digitVal_digitChar (show m / 10 < 10 by omega),
    digitVal_digitChar (show m % 10 < 10 by omega),
    digitVal_digitChar (show d / 10 < 10 by omega),
    digitVal_digitChar (show d % 10 < 10 by omega)]
  refine ⟨?_, ?_, ?_⟩ <;> omega

theorem isoDateTime_data {t : PyDateTime} (h : DTBounded t) :
    (isoDateTime t).data =
      [digitChar (t.y / 1000), digitChar (t.y / 100 % 10),
       digitChar (t.y / 10 % 10), digitChar (t.y % 10), '-',
       digitChar (t.mo / 10), digitChar (t.mo % 10), '-',
       digitChar (t.dd / 10), digitChar (t.dd % 10), 'T',
       digitChar (t.hh / 10), digitChar (t.hh % 10), ':',
       digitChar (t.mi / 10), digitChar (t.mi % 10), ':',
       digitChar (t.ss / 10), digitChar (t.ss % 10)] := by
  obtain ⟨h1, h2, h3, h4, h5, h6⟩ := h
  simp [isoDateTime, data_append, pad4_data h1, pad2_data h2, pad2_data h3,
    pad2_data h4, pad2_data h5, pad2_data h6]

/-- Reconstructing a datetime from its `isoformat` string succeeds and
returns the same value. -/
theorem parseIsoDateTime_isoDateTime {t : PyDateTime} (h : DTBounded t) :
    parseIsoDateTime (isoDateTime t) = some t := by
  obtain ⟨y, mo, dd, hh, mi, ss⟩ := t
  obtain ⟨h1, h2, h3, h4, h5, h6⟩ := h
  simp only [] at h1 h2 h3 h4 h5 h6
  unfold parseIsoDateTime
  rw [isoDateTime_data ⟨h1, h2, h3, h4, h5, h6⟩]
  simp [isDigitChar_digitChar (show y / 1000 < 10 by omega),
    isDigitChar_digitChar (show y / 100 % 10 < 10 by omega),
    isDigitChar_digitChar (show y / 10 % 10 < 10 by omega),
    isDigitChar_digitChar (show y % 10 < 10 by omega),
    isDigitChar_digitChar (show mo / 10 < 10 by omega),
    isDigitChar_digitChar (show mo % 10 < 10 by omega),
    isDigitChar_digitChar (show dd / 10 < 10 by omega),
    isDigitChar_digitChar (show dd % 10 < 10 by omega),
    isDigitChar_digitChar (show hh / 10 < 10 by omega),
    isDigitChar_digitChar (show hh % 10 < 10 by omega),
    isDigitChar_digitChar (show mi / 10 < 10 by omega),
    isDigitChar_digitChar (show mi % 10 < 10 by omega),
    isDigitChar_digitChar (show ss / 10 < 10 by omega),
    isDigitChar_digitChar (show ss % 10 < 10 by omega),
    digitVal_digitChar (show y / 1000 < 10 by omega),
    digitVal_digitChar (show y / 100 % 10 < 10 by omega),
    digitVal_digitChar (show y / 10 % 10 < 10 by omega),
    digitVal_digitChar (show y % 10 < 10 by omega),
    digitVal_digitChar (show mo / 10 < 10 by omega),
    digitVal_digitChar (show mo % 10 < 10 by omega),
    digitVal_digitChar (show dd / 10 < 10 by omega),
    digitVal_digitChar (show dd % 10 < 10 by omega),
    digitVal_digitChar (show hh / 10 < 10 by omega),
    digitVal_digitChar (show hh % 10 < 10 by omega),
    digitVal_digitChar (show mi / 10 < 10 by omega),
    digitVal_digitChar (show mi % 10 < 10 by omega),
    digitVal_digitChar (show ss / 10 < 10 by omega),
    digitVal_digitChar (show ss % 10 < 10 by omega)]
  refine ⟨?_, ?_, ?_, ?_, ?_, ?_⟩ <;> omega

theorem lookup_filter_ne {k key : String} (h : ¬k = key)
    (l : List (String × CacheEntry)) :
    (l.filter (fun p => p.1 != key)).lookup k = l.lookup k := by
  induction l with
  | nil => rfl
  | cons hd tl ih =>
    obtain ⟨a, b⟩ := hd
    by_cases hak : a = key
    · subst hak
      simp [List.filter_cons, List.lookup, show (k == a) = false by simp [h], ih]
    · have hfa : (a != key) = true := by simp [bne, hak]
      by_cases hka : k = a
      · subst hka
        simp [List.filter_cons, hfa, List.lookup]
      · simp [List.filter_cons, hfa, List.lookup,
          show (k == a) = false by simp [hka], ih]

theorem flushInstant_ge (now : Nat) : now ≤ flushInstant now := by
  unfold flushInstant
  simp only [daySec, cutoverSec]
  split <;> omega

theorem set_cache_gsuf_deadline (r : Redis) (key : String) (v : PyVal)
    (now : Nat) (havail : r.avail = true) (hfail : r.failing = false)
    (hpos : 0 < get_seconds_until_flush now) :
    (set_cache r key v (get_seconds_until_flush now) now).store.lookup key =
      some ⟨encodeStored v, some (flushInstant now)⟩ := by
  have hge := flushInstant_ge now
  have htn : (get_seconds_until_flush now).toNat = flushInstant now - now := by
    unfold get_seconds_until_flush
    omega
  simp only [set_cache, havail, hfail, Bool.not_true, Bool.false_eq_true,
    if_false, if_pos hpos]
  simp [List.lookup, htn]
  omega

/-- C6 (amended): `set_cache` with a nonpositive TTL stores the value without
expiry; a set always overwrites the key and leaves other keys unchanged;
string and integer scalars are stored as-is; lists and dicts are serialized
to the JSON encoding, in which `date` and `datetime` values are rendered as
their ISO-8601 `isoformat` strings — but bare `date`/`datetime` values are
also serialized (as quoted ISO strings), not stored as-is. -/
theorem c6_set_cache_semantics (r : Redis) (key : String) (v : PyVal)
    (expire : Int) (now : Nat) (havail : r.avail = true)
    (hfail : r.failing = false) :
    ((set_cache r key v expire now).store.lookup key =
      some ⟨encodeStored v, if expire > 0 then some (now + expire.toNat) else none⟩) ∧
    (expire ≤ 0 →
      (set_cache r key v expire now).store.lookup key =
        some ⟨encodeStored v, none⟩) ∧
    (∀ k2, ¬k2 = key →
      (set_cache r key v expire now).store.lookup k2 = r.store.lookup k2) ∧
    (∀ s, encodeStored (.pstr s) = .rawStr s) ∧
    (∀ n, encodeStored (.pint n) = .rawInt n) ∧
    (∀ l, encodeStored (.plist l) = .text (.jarr (pyToJList l))) ∧
    (∀ l, encodeStored (.pdict l) = .text (.jobj (pyToJPairs l))) ∧
    (∀ d, pyToJ (.pdate d) = .jstr (isoDate d)) ∧
    (∀ t, pyToJ (.pdatetime t) = .jstr (isoDateTime t)) := by
  refine ⟨?_, ?_, ?_, fun s => rfl, fun n => rfl, fun l => rfl, fun l => rfl,
    fun d => rfl, fun t => rfl⟩
  · simp [set_cache, havail, hfail, List.lookup]
  · intro hle
    have : ¬expire > 0 := by omega
    simp [set_cache, havail, hfail, List.lookup, this]
  · intro k2 hk2
    simp only [set_cache, havail, hfail, Bool.not_true, Bool.false_eq_true,
      if_false]
    simp only [List.lookup, show (k2 == key) = false by simp [hk2]]
    exact lookup_filter_ne hk2 r.store

/-- Closed witness for `c6_set_cache_semantics`: a zero TTL stores without
expiry. -/
theorem c6_set_cache_semantics_witness :
    (set_cache ⟨true, false, []⟩ ("k") (.pint 7) 0 100).store.lookup ("k") =
      some ⟨encodeStored (.pint 7), none⟩ :=
  (c6_set_cache_semantics ⟨true, false, []⟩ ("k") (.pint 7) 0 100 rfl rfl).2.1
    (by decide)

/-- Counterexample to C6 as stated: a bare calendar date is a non-container
scalar, yet `set_cache` serializes it to the quoted JSON text of its ISO
string instead of storing it as-is. -/
theorem c6_bare_date_not_raw :
    isRawStored (encodeStored (.pdate ⟨2024, 5, 1⟩)) = false ∧
    encodeStored (.pdate ⟨2024, 5, 1⟩) = .text (.jstr ("2024-05-01")) := by
  constructor
  · rfl
  · rfl

/-- C7: when Redis is unavailable or every call on it raises, no cache
operation raises to its caller: `get_cache` degrades to a miss, `set_cache`
to a silent skip, `flush_cache` to a no-op, and each of the three
read-through operations still returns the result of a direct trading-store
query (with exactly one store query). -/
theorem c7_cache_degrades (r : Redis)
    (h : r.avail = false ∨ r.failing = true) :
    (∀ key now, get_cache r key now = none) ∧
    (∀ key v expire now, set_cache r key v expire now = r) ∧
    flush_cache r = r ∧
    (∀ db now limit, repo_get_last_trading_dates db r now limit =
      .ok (crud_get_last_trading_dates db limit, r, 1)) ∧
    (∀ db now oil dt dbs sd ed, repo_get_dynamics db r now oil dt dbs sd ed =
      ((crud_get_dynamics db oil dt dbs sd ed).map fromOrm, r, 1)) ∧
    (∀ db now oil dt dbs limit,
      repo_get_trading_results db r now oil dt dbs limit =
        ((repo_trading_results_query db oil dt dbs limit).map fromOrm, r, 1)) := by
  have hget : ∀ key now, get_cache r key now = none := by
    intro key now
    rcases h with h | h <;> simp [get_cache, h]
  have hset : ∀ key v expire now, set_cache r key v expire now = r := by
    intro key v expire now
    rcases h with h | h <;> simp [set_cache, h]
  refine ⟨hget, hset, ?_, ?_, ?_, ?_⟩
  · rcases h with h | h <;> simp [flush_cache, h]
  · intro db now limit
    simp [repo_get_last_trading_dates, hget, hset]
  · intro db now oil dt dbs sd ed
    simp [repo_get_dynamics, hget, hset]
  · intro db now oil dt dbs limit
    simp [repo_get_trading_results, hget, hset]

/-- Closed witness for `c7_cache_degrades` on an unavailable client. -/
theorem c7_cache_degrades_witness :
    repo_get_dynamics [] ⟨false, false, []⟩ 0 none none none none none =
      ((crud_get_dynamics [] none none none none none).map fromOrm,
        ⟨false, false, []⟩, 1) :=
  (c7_cache_degrades ⟨false, false, []⟩ (Or.inl rfl)).2.2.2.2.1 [] 0
    none none none none none

/-- C1 (amended): every cache write performed by the three read-through
operations passes `expire = get_seconds_until_flush()`; whenever that TTL is
positive (the write happens strictly before the cutover), the written entry's
expiry deadline is exactly the next 14:11 cutover `flushInstant now`, so it
does not exceed the next scheduled flush instant. (A write at the cutover
instant itself computes TTL 0, which `set_cache` stores without expiry — see
the counterexample.) -/
theorem c1_entry_expiry_at_cutover :
    (∀ db r now limit, r.avail = true → r.failing = false →
      get_cache r (last_trading_dates_cache_key limit) now = none →
      0 < get_seconds_until_flush now →
      ∃ res r2, repo_get_last_trading_dates db r now limit = .ok (res, r2, 1) ∧
        ∃ e, r2.store.lookup (last_trading_dates_cache_key limit) = some e ∧
          e.deadline = some (flushInstant now) ∧
          expiryWithinB e (flushInstant now) = true) ∧
    (∀ db r now oil dt dbs sd ed, r.avail = true → r.failing = false →
      get_cache r (dynamics_cache_key oil dt dbs sd ed) now = none →
      0 < get_seconds_until_flush now →
      ∃ res r2, repo_get_dynamics db r now oil dt dbs sd ed = (res, r2, 1) ∧
        ∃ e, r2.store.lookup (dynamics_cache_key oil dt dbs sd ed) = some e ∧
          e.deadline = some (flushInstant now) ∧
          expiryWithinB e (flushInstant now) = true) ∧
    (∀ db r now oil dt dbs limit, r.avail = true → r.failing = false →
      get_cache r (trading_results_cache_key oil dt dbs limit) now = none →
      0 < get_seconds_until_flush now →
      ∃ res r2,
        repo_get_trading_results db r now oil dt dbs limit = (res, r2, 1) ∧
        ∃ e, r2.store.lookup (trading_results_cache_key oil dt dbs limit) =
            some e ∧
          e.deadline = some (flushInstant now) ∧
          expiryWithinB e (flushInstant now) = true) := by
  refine ⟨?_, ?_, ?_⟩
  · intro db r now limit havail hfail hmiss hpos
    have hrepo : repo_get_last_trading_dates db r now limit =
        .ok (crud_get_last_trading_dates db limit,
          set_cache r (last_trading_dates_cache_key limit)
            (.plist ((crud_get_last_trading_dates db limit).map
              (fun d => .pstr (isoDate d))))
            (get_seconds_until_flush now) now, 1) := by
      simp [repo_get_last_trading_dates, hmiss]
    refine ⟨_, _, hrepo, ?_⟩
    refine ⟨_, set_cache_gsuf_deadline r _ _ now havail hfail hpos, rfl, ?_⟩
    simp [expiryWithinB]
  · intro db r now oil dt dbs sd ed havail hfail hmiss hpos
    have hrepo : repo_get_dynamics db r now oil dt dbs sd ed =
        ((crud_get_dynamics db oil dt dbs sd ed).map fromOrm,
          set_cache r (dynamics_cache_key oil dt dbs sd ed)
            (.plist (((crud_get_dynamics db oil dt dbs sd ed).map fromOrm).map
              trToPy))
            (get_seconds_until_flush now) now, 1) := by
      simp [repo_get_dynamics, hmiss]
    refine ⟨_, _, hrepo, ?_⟩
    refine ⟨_, set_cache_gsuf_deadline r _ _ now havail hfail hpos, rfl, ?_⟩
    simp [expiryWithinB]
  · intro db r now oil dt dbs limit havail hfail hmiss hpos
    have hrepo : repo_get_trading_results db r now oil dt dbs limit =
        ((repo_trading_results_query db oil dt dbs limit).map fromOrm,
          set_cache r (trading_results_cache_key oil dt dbs limit)
            (.plist (((repo_trading_results_query db oil dt dbs limit).map
              fromOrm).map trToPy))
            (get_seconds_until_flush now) now, 1) := by
      simp [repo_get_trading_results, hmiss]
    refine ⟨_, _, hrepo, ?_⟩
    refine ⟨_, set_cache_gsuf_deadline r _ _ now havail hfail hpos, rfl, ?_⟩
    simp [expiryWithinB]

/-- Closed witness for `c1_entry_expiry_at_cutover`: a dynamics write on an
empty cache one second after midnight carries deadline 51060 = 14:11. -/
theorem c1_entry_expiry_at_cutover_witness :
    ∃ res r2, repo_get_dynamics [] ⟨true, false, []⟩ 1 none none none none none =
      (res, r2, 1) ∧
      ∃ e, r2.store.lookup (dynamics_cache_key none none none none none) =
          some e ∧
        e.deadline = some (flushInstant 1) ∧
        expiryWithinB e (flushInstant 1) = true :=
  (c1_entry_expiry_at_cutover.2.1 [] ⟨true, false, []⟩ 1 none none none none none
    rfl rfl rfl (by decide))

/-- Counterexample to C1 as stated: a read-through write at the cutover
second itself (now = 51060, i.e. 14:11:00) computes TTL 0, and `set_cache`
then stores the entry without any expiry, so its expiry exceeds the next
scheduled flush instant. -/
theorem c1_write_at_cutover_never_expires :
    get_seconds_until_flush 51060 = 0 ∧
    repo_get_last_trading_dates [exRow1] ⟨true, false, []⟩ 51060 5 =
      .ok ([⟨2024, 5, 1⟩], ⟨true, false,
        [(last_trading_dates_cache_key 5,
          ⟨.text (.jarr [.jstr ("2024-05-01")]), none⟩)]⟩, 1) ∧
    expiryWithinB ⟨.text (.jarr [.jstr ("2024-05-01")]), none⟩
      (flushInstant 51060) = false := by
  refine ⟨by decide, ?_, rfl⟩
  rfl

theorem dynamicsFilters_all (oil dt dbs : Option String)
    (sd ed : Option PyDateTime) (r : Row) :
    (dynamicsFilters oil dt dbs sd ed).all (fun f => f r) =
      matchesDynamics oil dt dbs sd ed r := by
  unfold dynamicsFilters matchesDynamics
  cases oil <;> cases dt <;> cases dbs <;> cases sd <;> cases ed <;>
    simp only [List.all_append, List.all_nil, List.all_cons, Bool.and_true,
      Bool.true_and] <;>
    split_ifs <;> simp_all [Bool.and_assoc]

theorem crud_get_dynamics_eq (db : List Row) (oil dt dbs : Option String)
    (sd ed : Option PyDateTime) :
    crud_get_dynamics db oil dt dbs sd ed =
      (db.filter (fun r => matchesDynamics oil dt dbs sd ed r)).insertionSort
        dateDesc := by
  simp only [crud_get_dynamics]
  by_cases hfs : (dynamicsFilters oil dt dbs sd ed).isEmpty
  · have hfs' : dynamicsFilters oil dt dbs sd ed = [] :=
      List.isEmpty_iff.mp hfs
    have hall : ∀ r, matchesDynamics oil dt dbs sd ed r = true := by
      intro r
      rw [← dynamicsFilters_all, hfs']
      rfl
    simp only [hfs, if_true]
    rw [List.filter_eq_self.mpr (fun a _ => hall a)]
  · rw [if_neg hfs]
    rw [List.filter_congr (fun a _ => dynamicsFilters_all oil dt dbs sd ed a)]

/-- C8: `get_dynamics` applies each of the five filters only when the
parameter is provided (truthy); the result is a permutation of exactly the
matching rows of the store, sorted descending by date, with no limit; with
all filters unset it is a descending permutation of the whole store. -/
theorem c8_dynamics_semantics (db : List Row) (oil dt dbs : Option String)
    (sd ed : Option PyDateTime) :
    List.Perm (crud_get_dynamics db oil dt dbs sd ed)
      (db.filter (fun r => matchesDynamics oil dt dbs sd ed r)) ∧
    List.Sorted dateDesc (crud_get_dynamics db oil dt dbs sd ed) ∧
    (∀ r, r ∈ crud_get_dynamics db oil dt dbs sd ed ↔
      r ∈ db ∧ matchesDynamics oil dt dbs sd ed r = true) ∧
    List.Perm (crud_get_dynamics db none none none none none) db := by
  refine ⟨?_, ?_, ?_, ?_⟩
  · rw [crud_get_dynamics_eq]
    exact List.perm_insertionSort _ _
  · rw [crud_get_dynamics_eq]
    exact List.sorted_insertionSort _ _
  · intro r
    rw [crud_get_dynamics_eq]
    rw [(List.perm_insertionSort dateDesc _).mem_iff]
    simp [List.mem_filter]
  · rw [crud_get_dynamics_eq]
    have : ∀ r ∈ db, matchesDynamics none none none none none r = true :=
      fun r _ => rfl
    rw [List.filter_eq_self.mpr this]
    exact List.perm_insertionSort _ _

/-- Closed witness for `c8_dynamics_semantics`: the membership
characterization evaluated on a one-row store. -/
theorem c8_dynamics_semantics_witness :
    exRow1 ∈ crud_get_dynamics [exRow1] (some ("A")) none none none none :=
  ((c8_dynamics_semantics [exRow1] (some ("A")) none none none none).2.2.1
    exRow1).mpr ⟨by decide, by decide⟩

/-- C9: `get_trading_results` filters on all three of oil type, delivery type
and delivery basis, orders descending by date and truncates to `limit`: the
result is the `limit`-prefix of a descending permutation of exactly the
matching rows; every returned row matches all three filters; the result is
sorted descending with length at most `limit`; and on the spec's concrete
scenario (three matching rows, limit 2) it returns the two most recent in
descending order. -/
theorem c9_trading_results_semantics (db : List Row) (oil dt dbs : String)
    (limit : Nat) :
    (∃ full, List.Perm full (db.filter (fun r =>
        r.oil_id == oil && r.delivery_type_id == dt &&
          r.delivery_basis_id == dbs)) ∧
      List.Sorted dateDesc full ∧
      crud_get_trading_results db oil dt dbs limit = full.take limit) ∧
    (∀ r, r ∈ crud_get_trading_results db oil dt dbs limit →
      r ∈ db ∧ r.oil_id = oil ∧ r.delivery_type_id = dt ∧
        r.delivery_basis_id = dbs) ∧
    List.Sorted dateDesc (crud_get_trading_results db oil dt dbs limit) ∧
    (crud_get_trading_results db oil dt dbs limit).length ≤ limit ∧
    crud_get_trading_results [exTR1, exTR2, exTR3] ("A100") ("T1") ("B1") 2 =
      [exTR3, exTR2] := by
  have hsorted : List.Sorted dateDesc
      ((db.filter (fun r => r.oil_id == oil && r.delivery_type_id == dt &&
        r.delivery_basis_id == dbs)).insertionSort dateDesc) :=
    List.sorted_insertionSort _ _
  refine ⟨⟨_, List.perm_insertionSort _ _, hsorted, rfl⟩, ?_, ?_, ?_, by decide⟩
  · intro r hr
    unfold crud_get_trading_results at hr
    have hr2 := List.mem_of_mem_take hr
    rw [(List.perm_insertionSort dateDesc _).mem_iff] at hr2
    rw [List.mem_filter] at hr2
    obtain ⟨hdb, hmatch⟩ := hr2
    simp only [Bool.and_eq_true, beq_iff_eq] at hmatch
    exact ⟨hdb, hmatch.1.1, hmatch.1.2, hmatch.2⟩
  · unfold crud_get_trading_results
    exact hsorted.sublist (List.take_sublist _ _)
  · unfold crud_get_trading_results
    simp [List.length_take]

/-- Closed witness for `c9_trading_results_semantics`: the returned rows of
the concrete scenario match all three filters. -/
theorem c9_trading_results_semantics_witness :
    exTR3 ∈ [exTR1, exTR2, exTR3] ∧ exTR3.oil_id = "A100" ∧
      exTR3.delivery_type_id = "T1" ∧ exTR3.delivery_basis_id = "B1" :=
  (c9_trading_results_semantics [exTR1, exTR2, exTR3] ("A100") ("T1") ("B1")
    2).2.1 exTR3 (by decide)

/-- C10: in both dynamics variants and the repository variant of
`get_trading_results`, an empty-string value for oil type, delivery type or
delivery basis is falsy (`if oil_id:`), so it contributes no equality
constraint — the query result is identical to the one with the parameter
unset. (`crud_get_dynamics` embeds the filter logic shared verbatim by
`crud.get_dynamics` and `TradingRepository.get_dynamics`.) -/
theorem c10_empty_string_is_unset :
    (∀ db dt dbs sd ed, crud_get_dynamics db (some ("")) dt dbs sd ed =
      crud_get_dynamics db none dt dbs sd ed) ∧
    (∀ db oil dbs sd ed, crud_get_dynamics db oil (some ("")) dbs sd ed =
      crud_get_dynamics db oil none dbs sd ed) ∧
    (∀ db oil dt sd ed, crud_get_dynamics db oil dt (some ("")) sd ed =
      crud_get_dynamics db oil dt none sd ed) ∧
    (∀ db dt dbs limit, repo_trading_results_query db (some ("")) dt dbs limit =
      repo_trading_results_query db none dt dbs limit) ∧
    (∀ db oil dbs limit, repo_trading_results_query db oil (some ("")) dbs limit =
      repo_trading_results_query db oil none dbs limit) ∧
    (∀ db oil dt limit, repo_trading_results_query db oil dt (some ("")) limit =
      repo_trading_results_query db oil dt none limit) := by
  refine ⟨?_, ?_, ?_, ?_, ?_, ?_⟩ <;> intros <;> rfl

theorem pyToJList_eq_map (l : List PyVal) : pyToJList l = l.map pyToJ := by
  induction l with
  | nil => rfl
  | cons v vs ih => simp [pyToJList, ih]

theorem pyToJPairs_eq_map (l : List (String × PyVal)) :
    pyToJPairs l = l.map (fun p => (p.1, pyToJ p.2)) := by
  induction l with
  | nil => rfl
  | cons v vs ih =>
    obtain ⟨k, x⟩ := v
    simp [pyToJPairs, ih]

theorem recDatesList_roundtrip (dates : List PyDate)
    (h : ∀ d ∈ dates, DateBounded d) :
    recDatesList (dates.map (fun d => JVal.jstr (isoDate d))) = .ok dates := by
  induction dates with
  | nil => rfl
  | cons d ds ih =>
    simp only [List.map_cons, recDatesList]
    rw [parseIsoDate_isoDate (h d (by simp))]
    rw [ih (fun x hx => h x (by simp [hx]))]

theorem parseTR_roundtrip (t : TradingResult) (h : DTBounded t.date) :
    parseTR (pyToJ (trToPy t)) = some t := by
  simp only [trToPy, pyToJ, pyToJPairs, parseTR, List.lookup]
  simp only [show (("oil_id" : String) == "oil_id") = true from rfl]
  simp [List.lookup, parseIsoDateTime_isoDateTime h]

theorem parseTRList_roundtrip (ts : List TradingResult)
    (h : ∀ t ∈ ts, DTBounded t.date) :
    parseTRList (ts.map (fun t => pyToJ (trToPy t))) = some ts := by
  induction ts with
  | nil => rfl
  | cons t rest ih =>
    simp only [List.map_cons, parseTRList]
    rw [parseTR_roundtrip t (h t (by simp))]
    rw [ih (fun x hx => h x (by simp [hx]))]

theorem get_cache_some {r : Redis} {key : String} {now : Nat} {j : JVal}
    (h : get_cache r key now = some j) :
    r.avail = true ∧ r.failing = false := by
  cases hav : r.avail with
  | false =>
    rw [get_cache] at h
    simp [hav] at h
  | true =>
    cases hfl : r.failing with
    | false => exact ⟨rfl, rfl⟩
    | true =>
      rw [get_cache] at h
      simp [hav, hfl] at h

/-- C2 (amended): for a truthy cache hit whose payload fails to reconstruct,
the read discards the hit, flushes the entire cache, queries the trading
store exactly once, writes the fresh result back and returns it — and
afterwards the cache holds only the freshly written entry. For
`get_dynamics` / `get_trading_results` this covers every reconstruction
failure; for `get_last_trading_dates` it covers exactly the string-parse
(`ValueError`) failures, because its `except` clause catches only
`ValueError` — a dates payload with non-string elements instead raises to
the caller (see the counterexample). -/
theorem c2_corruption_recovery :
    (∀ db r now limit j,
      get_cache r (last_trading_dates_cache_key limit) now = some j →
      truthyJ j = true →
      reconstructDates j = .error .valErr →
      ∃ r2, repo_get_last_trading_dates db r now limit =
          .ok (crud_get_last_trading_dates db limit, r2, 1) ∧
        r2.store = [(last_trading_dates_cache_key limit,
          ⟨encodeStored (.plist ((crud_get_last_trading_dates db limit).map
            (fun d => .pstr (isoDate d)))),
           if get_seconds_until_flush now > 0 then
             some (now + (get_seconds_until_flush now).toNat) else none⟩)]) ∧
    (∀ db r now oil dt dbs sd ed j,
      get_cache r (dynamics_cache_key oil dt dbs sd ed) now = some j →
      truthyJ j = true →
      reconstructResults j = none →
      ∃ r2, repo_get_dynamics db r now oil dt dbs sd ed =
          ((crud_get_dynamics db oil dt dbs sd ed).map fromOrm, r2, 1) ∧
        r2.store = [(dynamics_cache_key oil dt dbs sd ed,
          ⟨encodeStored (.plist (((crud_get_dynamics db oil dt dbs sd ed).map
            fromOrm).map trToPy)),
           if get_seconds_until_flush now > 0 then
             some (now + (get_seconds_until_flush now).toNat) else none⟩)]) ∧
    (∀ db r now oil dt dbs limit j,
      get_cache r (trading_results_cache_key oil dt dbs limit) now = some j →
      truthyJ j = true →
      reconstructResults j = none →
      ∃ r2, repo_get_trading_results db r now oil dt dbs limit =
          ((repo_trading_results_query db oil dt dbs limit).map fromOrm, r2, 1) ∧
        r2.store = [(trading_results_cache_key oil dt dbs limit,
          ⟨encodeStored (.plist (((repo_trading_results_query db oil dt dbs
            limit).map fromOrm).map trToPy)),
           if get_seconds_until_flush now > 0 then
             some (now + (get_seconds_until_flush now).toNat) else none⟩)]) := by
  refine ⟨?_, ?_, ?_⟩
  · intro db r now limit j hhit htruthy hrec
    obtain ⟨havail, hfail⟩ := get_cache_some hhit
    refine ⟨set_cache (flush_cache r) (last_trading_dates_cache_key limit)
        (.plist ((crud_get_last_trading_dates db limit).map
          (fun d => .pstr (isoDate d))))
        (get_seconds_until_flush now) now, ?_, ?_⟩
    · simp [repo_get_last_trading_dates, hhit, htruthy, hrec]
    · simp [set_cache, flush_cache, havail, hfail]
  · intro db r now oil dt dbs sd ed j hhit htruthy hrec
    obtain ⟨havail, hfail⟩ := get_cache_some hhit
    refine ⟨set_cache (flush_cache r) (dynamics_cache_key oil dt dbs sd ed)
        (.plist (((crud_get_dynamics db oil dt dbs sd ed).map fromOrm).map
          trToPy))
        (get_seconds_until_flush now) now, ?_, ?_⟩
    · simp [repo_get_dynamics, hhit, htruthy, hrec]
    · simp [set_cache, flush_cache, havail, hfail]
  · intro db r now oil dt dbs limit j hhit htruthy hrec
    obtain ⟨havail, hfail⟩ := get_cache_some hhit
    refine ⟨set_cache (flush_cache r) (trading_results_cache_key oil dt dbs limit)
        (.plist (((repo_trading_results_query db oil dt dbs limit).map
          fromOrm).map trToPy))
        (get_seconds_until_flush now) now, ?_, ?_⟩
    · simp [repo_get_trading_results, hhit, htruthy, hrec]
    · simp [set_cache, flush_cache, havail, hfail]

/-- Closed witness for `c2_corruption_recovery`: a `ValueError`-corrupt dates
entry triggers flush, one store query, and leaves only the fresh entry. -/
theorem c2_corruption_recovery_witness :
    ∃ r2, repo_get_last_trading_dates [exRow1] corruptValRedis 0 5 =
        .ok (crud_get_last_trading_dates [exRow1] 5, r2, 1) ∧
      r2.store = [(last_trading_dates_cache_key 5,
        ⟨encodeStored (.plist ((crud_get_last_trading_dates [exRow1] 5).map
          (fun d => .pstr (isoDate d)))),
         if get_seconds_until_flush 0 > 0 then
           some (0 + (get_seconds_until_flush 0).toNat) else none⟩)] :=
  c2_corruption_recovery.1 [exRow1] corruptValRedis 0 5 (.jarr [.jstr ("bad")])
    rfl rfl rfl

/-- Counterexample to C2 as stated: a cached dates payload whose elements are
not strings fails to reconstruct, yet the read does not flush, does not
re-query the store and returns no result — the uncaught `TypeError`
propagates to the caller. -/
theorem c2_typeerror_propagates :
    reconstructDates (.jarr [.jnum 1]) = .error .typeErr ∧
    repo_get_last_trading_dates [exRow1] corruptTypeRedis 0 5 =
      .error .typeErr :=
  ⟨rfl, rfl⟩

theorem crud_dates_bounded (db : List Row) (limit : Nat)
    (h : ∀ row ∈ db, DTBounded row.date) :
    ∀ d ∈ crud_get_last_trading_dates db limit, DateBounded d := by
  intro d hd
  unfold crud_get_last_trading_dates at hd
  simp only [List.mem_map] at hd
  obtain ⟨t, ht, rfl⟩ := hd
  have ht2 := List.mem_of_mem_take ht
  rw [(List.perm_insertionSort dtDesc _).mem_iff] at ht2
  rw [List.mem_dedup] at ht2
  simp only [List.mem_map] at ht2
  obtain ⟨row, hrow, rfl⟩ := ht2
  have hb := h row hrow
  exact ⟨hb.1, hb.2.1, hb.2.2.1⟩

theorem dynamics_results_bounded (db : List Row) (oil dt dbs : Option String)
    (sd ed : Option PyDateTime) (h : ∀ row ∈ db, DTBounded row.date) :
    ∀ t ∈ (crud_get_dynamics db oil dt dbs sd ed).map fromOrm,
      DTBounded t.date := by
  intro t ht
  simp only [List.mem_map] at ht
  obtain ⟨row, hrow, rfl⟩ := ht
  rw [crud_get_dynamics_eq] at hrow
  rw [(List.perm_insertionSort dateDesc _).mem_iff] at hrow
  rw [List.mem_filter] at hrow
  exact h row hrow.1

theorem trading_results_bounded (db : List Row) (oil dt dbs : Option String)
    (limit : Nat) (h : ∀ row ∈ db, DTBounded row.date) :
    ∀ t ∈ (repo_trading_results_query db oil dt dbs limit).map fromOrm,
      DTBounded t.date := by
  intro t ht
  simp only [List.mem_map] at ht
  obtain ⟨row, hrow, rfl⟩ := ht
  unfold repo_trading_results_query at hrow
  have hrow2 := List.mem_of_mem_take hrow
  rw [(List.perm_insertionSort dateDesc _).mem_iff] at hrow2
  by_cases hfs : (repoTradingFilters oil dt dbs).isEmpty
  · simp only [hfs, if_true] at hrow2
    exact h row hrow2
  · simp only [hfs, Bool.false_eq_true, if_false] at hrow2
    rw [List.mem_filter] at hrow2
    exact h row hrow2.1

theorem repo_get_last_trading_dates_hit {db : List Row} {r : Redis}
    {now limit : Nat} {j : JVal} {ds : List PyDate}
    (hget : get_cache r (last_trading_dates_cache_key limit) now = some j)
    (htr : truthyJ j = true) (hrec : reconstructDates j = .ok ds) :
    repo_get_last_trading_dates db r now limit = .ok (ds, r, 0) := by
  simp [repo_get_last_trading_dates, hget, htr, hrec]

theorem repo_get_dynamics_hit {db : List Row} {r : Redis} {now : Nat}
    {oil dt dbs : Option String} {sd ed : Option PyDateTime} {j : JVal}
    {ts : List TradingResult}
    (hget : get_cache r (dynamics_cache_key oil dt dbs sd ed) now = some j)
    (htr : truthyJ j = true) (hrec : reconstructResults j = some ts) :
    repo_get_dynamics db r now oil dt dbs sd ed = (ts, r, 0) := by
  simp [repo_get_dynamics, hget, htr, hrec]

theorem repo_get_trading_results_hit {db : List Row} {r : Redis}
    {now : Nat} {oil dt dbs : Option String} {limit : Nat} {j : JVal}
    {ts : List TradingResult}
    (hget : get_cache r (trading_results_cache_key oil dt dbs limit) now = some j)
    (htr : truthyJ j = true) (hrec : reconstructResults j = some ts) :
    repo_get_trading_results db r now oil dt dbs limit = (ts, r, 0) := by
  simp [repo_get_trading_results, hget, htr, hrec]

/-- C4 (amended): starting from an available, empty cache, two calls of the
same operation with identical parameters, the first at `t1` and the second at
`t2` with `t1 ≤ t2` strictly before the next cutover, return identical
results; provided the first result is nonempty, the second call hits the
cache and does not invoke the trading store (query counter 0, state
unchanged). An empty first result is cached but read back as a falsy value
(`if cached:`), so the second call re-queries the store — see the
counterexample. -/
theorem c4_second_call_hits_cache :
    (∀ db t1 t2 limit, t1 ≤ t2 → t2 < flushInstant t1 →
      (∀ row ∈ db, DTBounded row.date) →
      crud_get_last_trading_dates db limit ≠ [] →
      ∃ r1, repo_get_last_trading_dates db ⟨true, false, []⟩ t1 limit =
          .ok (crud_get_last_trading_dates db limit, r1, 1) ∧
        repo_get_last_trading_dates db r1 t2 limit =
          .ok (crud_get_last_trading_dates db limit, r1, 0)) ∧
    (∀ db t1 t2 oil dt dbs sd ed, t1 ≤ t2 → t2 < flushInstant t1 →
      (∀ row ∈ db, DTBounded row.date) →
      (crud_get_dynamics db oil dt dbs sd ed).map fromOrm ≠ [] →
      ∃ r1, repo_get_dynamics db ⟨true, false, []⟩ t1 oil dt dbs sd ed =
          ((crud_get_dynamics db oil dt dbs sd ed).map fromOrm, r1, 1) ∧
        repo_get_dynamics db r1 t2 oil dt dbs sd ed =
          ((crud_get_dynamics db oil dt dbs sd ed).map fromOrm, r1, 0)) ∧
    (∀ db t1 t2 oil dt dbs limit, t1 ≤ t2 → t2 < flushInstant t1 →
      (∀ row ∈ db, DTBounded row.date) →
      (repo_trading_results_query db oil dt dbs limit).map fromOrm ≠ [] →
      ∃ r1, repo_get_trading_results db ⟨true, false, []⟩ t1 oil dt dbs limit =
          ((repo_trading_results_query db oil dt dbs limit).map fromOrm, r1, 1) ∧
        repo_get_trading_results db r1 t2 oil dt dbs limit =
          ((repo_trading_results_query db oil dt dbs limit).map fromOrm, r1, 0)) := by
  refine ⟨?_, ?_, ?_⟩
  · intro db t1 t2 limit hle hlt hWF hne
    have hpos : 0 < get_seconds_until_flush t1 := by
      unfold get_seconds_until_flush
      omega
    have htoNat : t1 + (get_seconds_until_flush t1).toNat = flushInstant t1 := by
      unfold get_seconds_until_flush
      omega
    refine ⟨⟨true, false, [(last_trading_dates_cache_key limit,
      ⟨encodeStored (.plist ((crud_get_last_trading_dates db limit).map
        (fun d => .pstr (isoDate d)))), some (flushInstant t1)⟩)]⟩, ?_, ?_⟩
    · simp [repo_get_last_trading_dates, get_cache, set_cache, hpos, htoNat]
    · have hget : get_cache ⟨true, false, [(last_trading_dates_cache_key limit,
          ⟨encodeStored (.plist ((crud_get_last_trading_dates db limit).map
            (fun d => .pstr (isoDate d)))), some (flushInstant t1)⟩)]⟩
          (last_trading_dates_cache_key limit) t2 =
          some (.jarr ((crud_get_last_trading_dates db limit).map
            (fun d => .jstr (isoDate d)))) := by
        simp [get_cache, List.lookup, aliveAt, hlt, decodeStored, encodeStored,
          pyToJ, pyToJList_eq_map, List.map_map, Function.comp]
      have htr : truthyJ (.jarr ((crud_get_last_trading_dates db limit).map
          (fun d => .jstr (isoDate d)))) = true := by
        simp [truthyJ, hne]
      have hrec : reconstructDates (.jarr ((crud_get_last_trading_dates db
          limit).map (fun d => .jstr (isoDate d)))) =
          .ok (crud_get_last_trading_dates db limit) := by
        simpa [reconstructDates] using
          recDatesList_roundtrip (crud_get_last_trading_dates db limit)
            (crud_dates_bounded db limit hWF)
      exact repo_get_last_trading_dates_hit hget htr hrec
  · intro db t1 t2 oil dt dbs sd ed hle hlt hWF hne
    have hpos : 0 < get_seconds_until_flush t1 := by
      unfold get_seconds_until_flush
      omega
    have htoNat : t1 + (get_seconds_until_flush t1).toNat = flushInstant t1 := by
      unfold get_seconds_until_flush
      omega
    refine ⟨⟨true, false, [(dynamics_cache_key oil dt dbs sd ed,
      ⟨encodeStored (.plist (((crud_get_dynamics db oil dt dbs sd ed).map
        fromOrm).map trToPy)), some (flushInstant t1)⟩)]⟩, ?_, ?_⟩
    · simp [repo_get_dynamics, get_cache, set_cache, hpos, htoNat]
    · have hget : get_cache ⟨true, false, [(dynamics_cache_key oil dt dbs sd ed,
          ⟨encodeStored (.plist (((crud_get_dynamics db oil dt dbs sd ed).map
            fromOrm).map trToPy)), some (flushInstant t1)⟩)]⟩
          (dynamics_cache_key oil dt dbs sd ed) t2 =
          some (.jarr (((crud_get_dynamics db oil dt dbs sd ed).map
            fromOrm).map (fun t => pyToJ (trToPy t)))) := by
        simp [get_cache, List.lookup, aliveAt, hlt, decodeStored, encodeStored,
          pyToJ, pyToJList_eq_map, List.map_map, Function.comp]
      have hne2 : crud_get_dynamics db oil dt dbs sd ed ≠ [] := by
        intro h
        apply hne
        rw [h]
        rfl
      have htr : truthyJ (.jarr (((crud_get_dynamics db oil dt dbs sd ed).map
          fromOrm).map (fun t => pyToJ (trToPy t)))) = true := by
        simp [truthyJ, hne2]
      have hrec : reconstructResults (.jarr (((crud_get_dynamics db oil dt dbs
          sd ed).map fromOrm).map (fun t => pyToJ (trToPy t)))) =
          some ((crud_get_dynamics db oil dt dbs sd ed).map fromOrm) := by
        simpa [reconstructResults] using
          parseTRList_roundtrip ((crud_get_dynamics db oil dt dbs sd ed).map
            fromOrm) (dynamics_results_bounded db oil dt dbs sd ed hWF)
      exact repo_get_dynamics_hit hget htr hrec
  · intro db t1 t2 oil dt dbs limit hle hlt hWF hne
    have hpos : 0 < get_seconds_until_flush t1 := by
      unfold get_seconds_until_flush
      omega
    have htoNat : t1 + (get_seconds_until_flush t1).toNat = flushInstant t1 := by
      unfold get_seconds_until_flush
      omega
    refine ⟨⟨true, false, [(trading_results_cache_key oil dt dbs limit,
      ⟨encodeStored (.plist (((repo_trading_results_query db oil dt dbs
        limit).map fromOrm).map trToPy)), some (flushInstant t1)⟩)]⟩, ?_, ?_⟩
    · simp [repo_get_trading_results, get_cache, set_cache, hpos, htoNat]
    · have hget : get_cache ⟨true, false, [(trading_results_cache_key oil dt dbs
          limit, ⟨encodeStored (.plist (((repo_trading_results_query db oil dt
            dbs limit).map fromOrm).map trToPy)), some (flushInstant t1)⟩)]⟩
          (trading_results_cache_key oil dt dbs limit) t2 =
          some (.jarr (((repo_trading_results_query db oil dt dbs limit).map
            fromOrm).map (fun t => pyToJ (trToPy t)))) := by
        simp [get_cache, List.lookup, aliveAt, hlt, decodeStored, encodeStored,
          pyToJ, pyToJList_eq_map, List.map_map, Function.comp]
      have hne2 : repo_trading_results_query db oil dt dbs limit ≠ [] := by
        intro h
        apply hne
        rw [h]
        rfl
      have htr : truthyJ (.jarr (((repo_trading_results_query db oil dt dbs
          limit).map fromOrm).map (fun t => pyToJ (trToPy t)))) = true := by
        simp [truthyJ, hne2]
      have hrec : reconstructResults (.jarr (((repo_trading_results_query db
          oil dt dbs limit).map fromOrm).map (fun t => pyToJ (trToPy t)))) =
          some ((repo_trading_results_query db oil dt dbs limit).map fromOrm) := by
        simpa [reconstructResults] using
          parseTRList_roundtrip ((repo_trading_results_query db oil dt dbs
            limit).map fromOrm) (trading_results_bounded db oil dt dbs limit hWF)
      exact repo_get_trading_results_hit hget htr hrec

/-- Closed witness for `c4_second_call_hits_cache`: dynamics on a one-row
store, first call at t=0, second at t=1, hits the cache with no store query. -/
theorem c4_second_call_hits_cache_witness :
    ∃ r1, repo_get_dynamics [exRow1] ⟨true, false, []⟩ 0 none none none none none =
        ((crud_get_dynamics [exRow1] none none none none none).map fromOrm, r1, 1) ∧
      repo_get_dynamics [exRow1] r1 1 none none none none none =
        ((crud_get_dynamics [exRow1] none none none none none).map fromOrm, r1, 0) :=
  c4_second_call_hits_cache.2.1 [exRow1] 0 1 none none none none none
    (by decide) (by decide) (by decide) (by decide)

/-- Counterexample to C4 as stated: with an empty store, both calls return
the identical (empty) result, but the cached empty list is falsy on the
second read (`if cached:`), so the second call queries the trading store
again (query counter 1, not 0). -/
theorem c4_empty_result_requeried :
    repo_get_dynamics [] ⟨true, false, []⟩ 0 none none none none none =
      ([], dynRedis1, 1) ∧
    repo_get_dynamics [] dynRedis1 1 none none none none none =
      ([], dynRedis1, 1) :=
  ⟨rfl, rfl⟩

theorem splitColon_ne_nil (l : List Char) : splitColon l ≠ [] := by
  cases l with
  | nil => simp [splitColon]
  | cons c cs =>
    simp only [splitColon]
    split
    · simp
    · split <;> simp

theorem splitColon_noColon {l : List Char} (h : ':' ∉ l) : splitColon l = [l] := by
  induction l with
  | nil => rfl
  | cons c cs ih =>
    have hc : ¬c = ':' := fun hch => h (hch ▸ List.mem_cons_self c cs)
    have hcs : ':' ∉ cs := fun hm => h (List.mem_cons_of_mem c hm)
    simp only [splitColon, hc, if_false, ih hcs]

theorem splitColon_append (u v : List Char) :
    splitColon (u ++ ':' :: v) = splitColon u ++ splitColon v := by
  induction u with
  | nil => simp [splitColon]
  | cons c u ih =>
    by_cases hc : c = ':'
    · subst hc
      have h1 : splitColon ((':' :: u) ++ ':' :: v) = [] :: splitColon (u ++ ':' :: v) := by
        simp [splitColon]
      have h2 : splitColon (':' :: u) = [] :: splitColon u := by
        simp [splitColon]
      rw [h1, h2, ih]
      rfl
    · obtain ⟨t, ts, ht⟩ := List.exists_cons_of_ne_nil (splitColon_ne_nil u)
      have h1 : splitColon ((c :: u) ++ ':' :: v) =
          match splitColon (u ++ ':' :: v) with
          | [] => [[c]]
          | t :: ts => (c :: t) :: ts := by
        simp [splitColon, hc]
      have h2 : splitColon (c :: u) =
          match splitColon u with
          | [] => [[c]]
          | t :: ts => (c :: t) :: ts := by
        simp [splitColon, hc]
      rw [h1, h2, ih, ht]
      simp

theorem digitChar_ne_colon {n : Nat} (h : n < 10) : digitChar n ≠ ':' := by
  interval_cases n <;> decide

theorem noColon_natDigits (n : Nat) : ':' ∉ natDigits n := by
  induction n using Nat.strong_induction_on with
  | _ n ih =>
    by_cases h : n < 10
    · rw [natDigits_lt10 h]
      intro hm
      rw [List.mem_singleton] at hm
      exact digitChar_ne_colon h hm.symm
    · rw [natDigits_ge10 (Nat.not_lt.1 h)]
      intro hm
      rw [List.mem_append] at hm
      rcases hm with hm | hm
      · exact ih (n / 10) (Nat.div_lt_self (by omega) (by omega)) hm
      · rw [List.mem_singleton] at hm
        exact digitChar_ne_colon (Nat.mod_lt _ (by omega)) hm.symm

theorem noColon_natStr (n : Nat) : ':' ∉ (natStr n).data := noColon_natDigits n

theorem noColon_pad2 (n : Nat) : ':' ∉ (pad2 n).data := by
  intro hm
  rw [show (pad2 n).data = (if n < 10 then ("0" : String) else "").data ++
      natDigits n from rfl] at hm
  rw [List.mem_append] at hm
  rcases hm with hm | hm
  · split at hm <;> simp [String.data] at hm
  · exact noColon_natDigits n hm

theorem noColon_pad4 (n : Nat) : ':' ∉ (pad4 n).data := by
  intro hm
  rw [show (pad4 n).data = (if n < 10 then ("000" : String)
      else if n < 100 then "00" else if n < 1000 then "0" else "").data ++
      natDigits n from rfl] at hm
  rw [List.mem_append] at hm
  rcases hm with hm | hm
  · split at hm
    · simp [String.data] at hm
    · split at hm <;> [skip; split at hm] <;> simp [String.data] at hm
  · exact noColon_natDigits n hm

theorem strDateTime_data (t : PyDateTime) :
    (strDateTime t).data =
      dtChunk1 t ++ ':' :: ((pad2 t.mi).data ++ ':' :: (pad2 t.ss).data) := by
  simp [strDateTime, dtChunk1, data_append, List.append_assoc]

theorem noColon_dtChunk1 (t : PyDateTime) : ':' ∉ dtChunk1 t := by
  intro hm
  simp [dtChunk1, data_append, List.mem_append] at hm
  rcases hm with hm | hm | hm | hm
  · exact noColon_pad4 _ hm
  · exact noColon_pad2 _ hm
  · exact noColon_pad2 _ hm
  · exact noColon_pad2 _ hm

theorem splitColon_strDateTime (t : PyDateTime) :
    splitColon (strDateTime t).data =
      [dtChunk1 t, (pad2 t.mi).data, (pad2 t.ss).data] := by
  rw [strDateTime_data, splitColon_append, splitColon_append,
    splitColon_noColon (noColon_dtChunk1 t),
    splitColon_noColon (noColon_pad2 t.mi),
    splitColon_noColon (noColon_pad2 t.ss)]
  rfl

theorem dtChunk1_data (t : PyDateTime) (h : DTBounded t) :
    dtChunk1 t =
      [digitChar (t.y / 1000), digitChar (t.y / 100 % 10),
       digitChar (t.y / 10 % 10), digitChar (t.y % 10), '-',
       digitChar (t.mo / 10), digitChar (t.mo % 10), '-',
       digitChar (t.dd / 10), digitChar (t.dd % 10), ' ',
       digitChar (t.hh / 10), digitChar (t.hh % 10)] := by
  obtain ⟨h1, h2, h3, h4, h5, h6⟩ := h
  simp [dtChunk1, data_append, pad4_data h1, pad2_data h2, pad2_data h3,
    pad2_data h4]

theorem dtChunk1_len (t : PyDateTime) (h : DTBounded t) :
    (dtChunk1 t).length = 13 := by
  rw [dtChunk1_data t h]
  rfl

theorem pad2_inj {a b : Nat} (ha : a < 100) (hb : b < 100)
    (h : (pad2 a).data = (pad2 b).data) : a = b := by
  rw [pad2_data ha, pad2_data hb] at h
  simp only [List.cons.injEq, and_true] at h
  obtain ⟨q1, q2⟩ := h
  have e1 := digitChar_inj (by omega) (by omega) q1
  have e2 := digitChar_inj (by omega) (by omega) q2
  omega

theorem dt_cells_inj {t t' : PyDateTime} (h : DTBounded t) (h' : DTBounded t')
    (h1 : dtChunk1 t = dtChunk1 t')
    (h2 : (pad2 t.mi).data = (pad2 t'.mi).data)
    (h3 : (pad2 t.ss).data = (pad2 t'.ss).data) : t = t' := by
  obtain ⟨b1, b2, b3, b4, b5, b6⟩ := h
  obtain ⟨c1, c2, c3, c4, c5, c6⟩ := h'
  rw [dtChunk1_data t ⟨b1, b2, b3, b4, b5, b6⟩,
    dtChunk1_data t' ⟨c1, c2, c3, c4, c5, c6⟩] at h1
  simp only [List.cons.injEq, and_true] at h1
  obtain ⟨q1, q2, q3, q4, _, q5, q6, _, q7, q8, _, q9, q10⟩ := h1
  have e1 := digitChar_inj (by omega) (by omega) q1
  have e2 := digitChar_inj (by omega) (by omega) q2
  have e3 := digitChar_inj (by omega) (by omega) q3
  have e4 := digitChar_inj (by omega) (by omega) q4
  have e5 := digitChar_inj (by omega) (by omega) q5
  have e6 := digitChar_inj (by omega) (by omega) q6
  have e7 := digitChar_inj (by omega) (by omega) q7
  have e8 := digitChar_inj (by omega) (by omega) q8
  have e9 := digitChar_inj (by omega) (by omega) q9
  have e10 := digitChar_inj (by omega) (by omega) q10
  have hmi := pad2_inj b5 c5 h2
  have hss := pad2_inj b6 c6 h3
  obtain ⟨y, mo, dd, hh, mi, ss⟩ := t
  obtain ⟨y', mo', dd', hh', mi', ss'⟩ := t'
  simp only [] at *
  congr 1 <;> omega

theorem string_data_inj {s t : String} (h : s.data = t.data) : s = t := by
  cases s
  cases t
  exact congrArg String.mk h

theorem noColon_renderOptStr {o : Option String} (h : GoodParam o) :
    ':' ∉ (renderOptStr o).data := by
  cases o with
  | none => decide
  | some s => exact h.2

theorem renderOptStr_inj {o o' : Option String} (ho : GoodParam o)
    (ho' : GoodParam o') (h : (renderOptStr o).data = (renderOptStr o').data) :
    o = o' := by
  have hs := string_data_inj h
  cases o with
  | none =>
    cases o' with
    | none => rfl
    | some s' => exact absurd hs.symm ho'.1
  | some s =>
    cases o' with
    | none => exact absurd hs ho.1
    | some s' => rw [renderOptStr, renderOptStr] at hs; rw [hs]

theorem splitColon_renderOptDT_none :
    splitColon (renderOptDT none).data = [("None").data] := by decide

theorem dtCell_inj {o o' : Option PyDateTime} (ho : GoodDT o) (ho' : GoodDT o')
    (h : splitColon (renderOptDT o).data = splitColon (renderOptDT o').data) :
    o = o' := by
  cases o with
  | none =>
    cases o' with
    | none => rfl
    | some t' =>
      rw [splitColon_renderOptDT_none] at h
      rw [show renderOptDT (some t') = strDateTime t' from rfl,
        splitColon_strDateTime] at h
      have := congrArg List.length h
      simp at this
  | some t =>
    cases o' with
    | none =>
      rw [splitColon_renderOptDT_none] at h
      rw [show renderOptDT (some t) = strDateTime t from rfl,
        splitColon_strDateTime] at h
      have := congrArg List.length h
      simp at this
    | some t' =>
      rw [show renderOptDT (some t) = strDateTime t from rfl,
        show renderOptDT (some t') = strDateTime t' from rfl,
        splitColon_strDateTime, splitColon_strDateTime] at h
      simp only [List.cons.injEq, and_true] at h
      obtain ⟨h1, h2, h3⟩ := h
      rw [dt_cells_inj ho ho' h1 h2 h3]

theorem dtBlock_inj {sd ed sd' ed' : Option PyDateTime}
    (hsd : GoodDT sd) (hed : GoodDT ed) (hsd' : GoodDT sd') (hed' : GoodDT ed')
    (h : splitColon (renderOptDT sd).data ++ splitColon (renderOptDT ed).data =
      splitColon (renderOptDT sd').data ++ splitColon (renderOptDT ed').data) :
    sd = sd' ∧ ed = ed' := by
  cases sd with
  | none =>
    cases sd' with
    | none =>
      rw [splitColon_renderOptDT_none] at h
      simp only [List.cons_append, List.nil_append, List.cons.injEq] at h
      exact ⟨rfl, dtCell_inj hed hed' h.2⟩
    | some t' =>
      rw [splitColon_renderOptDT_none,
        show renderOptDT (some t') = strDateTime t' from rfl,
        splitColon_strDateTime] at h
      simp only [List.cons_append, List.nil_append, List.cons.injEq] at h
      have hlen := congrArg List.length h.1
      rw [dtChunk1_len t' hsd'] at hlen
      simp [String.data] at hlen
  | some t =>
    cases sd' with
    | none =>
      rw [splitColon_renderOptDT_none,
        show renderOptDT (some t) = strDateTime t from rfl,
        splitColon_strDateTime] at h
      simp only [List.cons_append, List.nil_append, List.cons.injEq] at h
      have hlen := congrArg List.length h.1
      rw [dtChunk1_len t hsd] at hlen
      simp [String.data] at hlen
    | some t' =>
      rw [show renderOptDT (some t) = strDateTime t from rfl,
        show renderOptDT (some t') = strDateTime t' from rfl,
        splitColon_strDateTime, splitColon_strDateTime] at h
      simp only [List.cons_append, List.nil_append, List.cons.injEq] at h
      obtain ⟨h1, h2, h3, h4⟩ := h
      exact ⟨by rw [dt_cells_inj hsd hsd' h1 h2 h3],
        dtCell_inj hed hed' h4⟩

theorem colon_data : (":" : String).data = [':'] := rfl

theorem last_key_data (limit : Nat) :
    (last_trading_dates_cache_key limit).data =
      ("last_trading_dates").data ++ ':' :: natDigits limit := by
  simp [last_trading_dates_cache_key, data_append, colon_data,
    List.append_assoc, natStr]

theorem dynamics_key_data (oil dt dbs : Option String)
    (sd ed : Option PyDateTime) :
    (dynamics_cache_key oil dt dbs sd ed).data =
      ("dynamics").data ++ ':' :: ((renderOptStr oil).data ++ ':' ::
        ((renderOptStr dt).data ++ ':' :: ((renderOptStr dbs).data ++ ':' ::
          ((renderOptDT sd).data ++ ':' :: (renderOptDT ed).data)))) := by
  simp [dynamics_cache_key, data_append, colon_data, List.append_assoc]

theorem trading_key_data (oil dt dbs : Option String) (limit : Nat) :
    (trading_results_cache_key oil dt dbs limit).data =
      ("trading_results").data ++ ':' :: ((renderOptStr oil).data ++ ':' ::
        ((renderOptStr dt).data ++ ':' :: ((renderOptStr dbs).data ++ ':' ::
          natDigits limit))) := by
  simp [trading_results_cache_key, data_append, colon_data,
    List.append_assoc, natStr]

theorem splitColon_dynamics_key (oil dt dbs : Option String)
    (sd ed : Option PyDateTime) (h1 : GoodParam oil) (h2 : GoodParam dt)
    (h3 : GoodParam dbs) :
    splitColon (dynamics_cache_key oil dt dbs sd ed).data =
      ("dynamics").data :: (renderOptStr oil).data ::
        (renderOptStr dt).data :: (renderOptStr dbs).data ::
          (splitColon (renderOptDT sd).data ++
            splitColon (renderOptDT ed).data) := by
  rw [dynamics_key_data, splitColon_append, splitColon_append,
    splitColon_append, splitColon_append, splitColon_append,
    splitColon_noColon (show ':' ∉ ("dynamics").data by decide),
    splitColon_noColon (noColon_renderOptStr h1),
    splitColon_noColon (noColon_renderOptStr h2),
    splitColon_noColon (noColon_renderOptStr h3)]
  simp

theorem splitColon_trading_key (oil dt dbs : Option String) (limit : Nat)
    (h1 : GoodParam oil) (h2 : GoodParam dt) (h3 : GoodParam dbs) :
    splitColon (trading_results_cache_key oil dt dbs limit).data =
      [("trading_results").data, (renderOptStr oil).data,
        (renderOptStr dt).data, (renderOptStr dbs).data, natDigits limit] := by
  rw [trading_key_data, splitColon_append, splitColon_append,
    splitColon_append, splitColon_append,
    splitColon_noColon (show ':' ∉ ("trading_results").data by decide),
    splitColon_noColon (noColon_renderOptStr h1),
    splitColon_noColon (noColon_renderOptStr h2),
    splitColon_noColon (noColon_renderOptStr h3),
    splitColon_noColon (noColon_natDigits limit)]
  simp

/-- C5 (amended): each operation's cache key is built by colon-joining the
operation name and every parameter's string rendering (with `None` for unset
parameters), and this construction is injective for the dates key over all
limits, and for the dynamics and trading-results keys over all parameter
tuples whose provided string filters contain no colon and are distinct from
the literal string `None` (datetimes within Python's field bounds). Without
that proviso distinct tuples can collide — see the counterexample. -/
theorem c5_cache_key_injective :
    (∀ l1 l2 : Nat, last_trading_dates_cache_key l1 =
      last_trading_dates_cache_key l2 → l1 = l2) ∧
    (∀ oil dt dbs sd ed oil2 dt2 dbs2 sd2 ed2,
      GoodParam oil → GoodParam dt → GoodParam dbs →
      GoodParam oil2 → GoodParam dt2 → GoodParam dbs2 →
      GoodDT sd → GoodDT ed → GoodDT sd2 → GoodDT ed2 →
      dynamics_cache_key oil dt dbs sd ed =
        dynamics_cache_key oil2 dt2 dbs2 sd2 ed2 →
      oil = oil2 ∧ dt = dt2 ∧ dbs = dbs2 ∧ sd = sd2 ∧ ed = ed2) ∧
    (∀ oil dt dbs l oil2 dt2 dbs2 l2,
      GoodParam oil → GoodParam dt → GoodParam dbs →
      GoodParam oil2 → GoodParam dt2 → GoodParam dbs2 →
      trading_results_cache_key oil dt dbs l =
        trading_results_cache_key oil2 dt2 dbs2 l2 →
      oil = oil2 ∧ dt = dt2 ∧ dbs = dbs2 ∧ l = l2) := by
  refine ⟨?_, ?_, ?_⟩
  · intro l1 l2 h
    have hd := congrArg String.data h
    rw [last_key_data, last_key_data] at hd
    have hc := List.append_cancel_left hd
    rw [List.cons.injEq] at hc
    exact natDigits_inj hc.2
  · intro oil dt dbs sd ed oil2 dt2 dbs2 sd2 ed2 g1 g2 g3 g4 g5 g6 d1 d2 d3 d4 h
    have hs := congrArg (fun s => splitColon s.data) h
    simp only [] at hs
    rw [splitColon_dynamics_key oil dt dbs sd ed g1 g2 g3,
      splitColon_dynamics_key oil2 dt2 dbs2 sd2 ed2 g4 g5 g6] at hs
    simp only [List.cons.injEq, true_and] at hs
    obtain ⟨e1, e2, e3, e4⟩ := hs
    obtain ⟨e5, e6⟩ := dtBlock_inj d1 d2 d3 d4 e4
    exact ⟨renderOptStr_inj g1 g4 e1, renderOptStr_inj g2 g5 e2,
      renderOptStr_inj g3 g6 e3, e5, e6⟩
  · intro oil dt dbs l oil2 dt2 dbs2 l2 g1 g2 g3 g4 g5 g6 h
    have hs := congrArg (fun s => splitColon s.data) h
    simp only [] at hs
    rw [splitColon_trading_key oil dt dbs l g1 g2 g3,
      splitColon_trading_key oil2 dt2 dbs2 l2 g4 g5 g6] at hs
    simp only [List.cons.injEq, true_and, and_true] at hs
    obtain ⟨e1, e2, e3, e4⟩ := hs
    exact ⟨renderOptStr_inj g1 g4 e1, renderOptStr_inj g2 g5 e2,
      renderOptStr_inj g3 g6 e3, natDigits_inj e4⟩

/-- Closed witness for `c5_cache_key_injective` at concrete well-formed
parameters. -/
theorem c5_cache_key_injective_witness :
    some ("A") = some ("A") ∧ some ("T") = some ("T") ∧
      (none : Option String) = none ∧
      (none : Option PyDateTime) = none ∧ (none : Option PyDateTime) = none :=
  c5_cache_key_injective.2.1 (some ("A")) (some ("T")) none none none
    (some ("A")) (some ("T")) none none none
    (by constructor <;> decide) (by constructor <;> decide) trivial
    (by constructor <;> decide) (by constructor <;> decide) trivial
    trivial trivial trivial trivial rfl

/-- Counterexample to C5 as stated: the tuple with oil type the literal
string `None` and the all-unset tuple are distinct, yet produce the same
dynamics cache key. -/
theorem c5_none_string_collides :
    dynamics_cache_key (some ("None")) none none none none =
      dynamics_cache_key none none none none none ∧
    some ("None") ≠ (none : Option String) := by
  constructor
  · rfl
  · simp
